import Mathlib

/-
Verification of the AI-agent orchestration core of pl-descent-navigator
(supabase/functions/ai-agent/index.ts).

The development shallowly embeds, from the source:
  - a model of JavaScript JSON values and of JSON.parse (the upstream
    protocol frames and tool arguments are JSON text),
  - the Stream Relay chunk decoder (the ReadableStream start handler,
    lines 281-351),
  - the Tool Executor (executeToolsParallel / executeSingleTool,
    lines 428-674), with the database and invoked edge functions treated
    as per-call outcome oracles,
  - a state-passing model of the create_oby_draft handler (lines 546-595)
    over an explicit oby_forms table, used for the idempotence claim,
  - the effectful skeleton of the serve handler (lines 170-425) for both
    the streaming and the non-streaming path.
Read-only context assembly (buildAgentContext, getSystemPrompt, the
conversation-history fetch) only feeds the request sent to the model
collaborator; the model response is an oracle input here, so those pure
builders are not re-embedded.
-/

/-- Model of a JavaScript JSON value. Numbers are kept as a decimal
mantissa and scale (value = m / 10 ^ scale), which is exact for every
numeral JSON.parse accepts. -/
inductive Json where
  | null : Json
  | bool (b : Bool) : Json
  | num (m : Int) (scale : Nat) : Json
  | str (s : String) : Json
  | arr (elems : List Json) : Json
  | obj (fields : List (String × Json)) : Json

/-- A possibly-undefined JavaScript value: none models undefined. -/
abbrev JsVal := Option Json

/-- Opening-brace character, by code point. -/
def lbraceC : Char := Char.ofNat 123

/-- Closing-brace character, by code point. -/
def rbraceC : Char := Char.ofNat 125

/-- Whitespace recognized by the decoder (ASCII part of the JS set). -/
def isWsChar (c : Char) : Bool :=
  c == ' ' || c == '\t' || c == '\n' || c == '\r' || c == '\x0b' || c == '\x0c'

/-- Drop leading whitespace. -/
def skipWs : List Char → List Char
  | [] => []
  | c :: cs => if isWsChar c then skipWs cs else c :: cs

/-- Model of String.prototype.trim restricted to the ASCII whitespace set. -/
def jsTrim (l : List Char) : List Char :=
  (skipWs (skipWs l).reverse).reverse

/-- First-match field lookup in a JS object (the embedding keeps keys
unique, see normalizeFields). -/
def lookupField : List (String × Json) → String → JsVal
  | [], _ => none
  | (k0, v) :: rest, k => if k0 == k then some v else lookupField rest k

/-- Set a field, replacing an existing binding in place as JS objects do. -/
def insertField : List (String × Json) → String → Json → List (String × Json)
  | [], k, v => [(k, v)]
  | (k0, v0) :: rest, k, v =>
    if k0 == k then (k0, v) :: rest else (k0, v0) :: insertField rest k v

/-- Fold raw parsed key-value pairs into a JS object: first occurrence
keeps its position, a later duplicate key overwrites the value. -/
def normalizeFields (raw : List (String × Json)) : List (String × Json) :=
  raw.foldl (fun acc p => insertField acc p.1 p.2) []

/-- JS truthiness of a JSON value. -/
def truthy : Json → Bool
  | .null => false
  | .bool b => b
  | .num m _ => m != 0
  | .str s => !s.isEmpty
  | .arr _ => true
  | .obj _ => true

/-- JS truthiness of a possibly-undefined value. -/
def truthyV : JsVal → Bool
  | none => false
  | some j => truthy j

/-- Digit characters of a natural number. -/
def natDigits (n : Nat) : List Char := (toString n).data

/-- Left-pad with zero digits up to the given length. -/
def padLeft (l : List Char) (n : Nat) : List Char :=
  List.replicate (n - l.length) '0' ++ l

/-- Drop trailing zero digits. -/
def trimZeros (l : List Char) : List Char :=
  (l.reverse.dropWhile (fun c => c == '0')).reverse

/-- Decimal rendering of a mantissa/scale number. Integral values render
exactly as JS does; fractional values render in plain positional decimal
form (the JS shortest-roundtrip float printing is approximated by exact
decimal printing, which agrees on every value the claims exercise). -/
def numStr (m : Int) (sc : Nat) : String :=
  if sc == 0 then toString m
  else
    let sign := if m < 0 then "-" else ""
    let ds := padLeft (natDigits m.natAbs) (sc + 1)
    let ip := ds.take (ds.length - sc)
    let fp := trimZeros (ds.drop (ds.length - sc))
    if fp.isEmpty then sign ++ String.mk ip
    else sign ++ String.mk ip ++ "." ++ String.mk fp

mutual

/-- Model of JS string coercion (String(v)) for JSON values. -/
def jsStr : Json → String
  | .null => "null"
  | .bool true => "true"
  | .bool false => "false"
  | .num m sc => numStr m sc
  | .str s => s
  | .arr l => String.intercalate "," (jsStrList l)
  | .obj _ => "[object Object]"

/-- Elementwise coercion used by Array.prototype.join: null renders empty. -/
def jsStrList : List Json → List String
  | [] => []
  | j :: rest =>
    (match j with
     | .null => ""
     | j2 => jsStr j2) :: jsStrList rest

end

/-- String coercion of a possibly-undefined value. -/
def jsStrV : JsVal → String
  | none => "undefined"
  | some j => jsStr j

/-- Property access with JS semantics: throws (as an Except error) on
null and undefined bases, yields undefined on other non-objects. -/
def jsPropE : JsVal → String → Except String JsVal
  | none, k => .error ("TypeError: cannot read " ++ k ++ " of undefined")
  | some .null, k => .error ("TypeError: cannot read " ++ k ++ " of null")
  | some (.obj fs), k => .ok (lookupField fs k)
  | some _, _ => .ok none

/-- Optional-chaining property access (the q-dot operator): null and
undefined bases yield undefined instead of throwing. -/
def jsOptField (v : JsVal) (k : String) : JsVal :=
  match v with
  | some (.obj fs) => lookupField fs k
  | _ => none

/-- Optional-chaining index access on arrays (also covering the JS
behavior on objects with numeric keys and on strings). -/
def jsOptIndex (v : JsVal) (i : Nat) : JsVal :=
  match v with
  | some (.arr l) => l.get? i
  | some (.obj fs) => lookupField fs (toString i)
  | some (.str s) => (s.data.get? i).map (fun ch => Json.str (String.mk [ch]))
  | _ => none

/-- Model of the JS length property read through optional chaining. -/
def jsLenV : JsVal → JsVal
  | some (.arr l) => some (.num (l.length : Int) 0)
  | some (.str s) => some (.num (s.length : Int) 0)
  | _ => none

/-- Model of the JS logical-or default idiom (v or default). -/
def jsOr (v : JsVal) (d : Json) : Json :=
  match v with
  | some j => if truthy j then j else d
  | none => d

mutual

/-- Structural equality test for JSON values. -/
def beqJson : Json → Json → Bool
  | .null, .null => true
  | .bool a, .bool b => a == b
  | .num a sa, .num b sb => a == b && sa == sb
  | .str a, .str b => a == b
  | .arr a, .arr b => beqJsonList a b
  | .obj a, .obj b => beqJsonFields a b
  | _, _ => false

/-- Structural equality of JSON arrays. -/
def beqJsonList : List Json → List Json → Bool
  | [], [] => true
  | a :: r1, b :: r2 => beqJson a b && beqJsonList r1 r2
  | _, _ => false

/-- Structural equality of JSON object field lists. -/
def beqJsonFields : List (String × Json) → List (String × Json) → Bool
  | [], [] => true
  | (k1, v1) :: r1, (k2, v2) :: r2 => k1 == k2 && beqJson v1 v2 && beqJsonFields r1 r2
  | _, _ => false

end

/-- Structural equality of possibly-undefined JSON values. -/
def beqJsonV : JsVal → JsVal → Bool
  | none, none => true
  | some a, some b => beqJson a b
  | _, _ => false

/-- Numeric value of a decimal digit character. -/
def digitVal (c : Char) : Nat := c.toNat - 48

/-- Natural number denoted by a digit list. -/
def natOfDigits (ds : List Char) : Nat :=
  ds.foldl (fun a c => a * 10 + digitVal c) 0

/-- Value of a hexadecimal digit character. -/
def hexVal (c : Char) : Option Nat :=
  if c.isDigit then some (c.toNat - 48)
  else if 97 ≤ c.toNat && c.toNat ≤ 102 then some (c.toNat - 87)
  else if 65 ≤ c.toNat && c.toNat ≤ 70 then some (c.toNat - 55)
  else none

/-- Longest digit prefix of the input and the remainder. -/
def digitsTake : List Char → List Char × List Char
  | [] => ([], [])
  | c :: cs =>
    if c.isDigit then
      let p := digitsTake cs
      (c :: p.1, p.2)
    else ([], c :: cs)

/-- Body of a JSON string literal after the opening quote: consume until
the closing quote, decoding the JSON escape sequences. -/
def parseStrAux (acc : List Char) : List Char → Option (List Char × List Char)
  | [] => none
  | c :: cs =>
    if c == '"' then some (acc.reverse, cs)
    else if c == '\\' then
      match cs with
      | [] => none
      | e :: cs2 =>
        if e == '"' then parseStrAux ('"' :: acc) cs2
        else if e == '\\' then parseStrAux ('\\' :: acc) cs2
        else if e == '/' then parseStrAux ('/' :: acc) cs2
        else if e == 'b' then parseStrAux (Char.ofNat 8 :: acc) cs2
        else if e == 'f' then parseStrAux (Char.ofNat 12 :: acc) cs2
        else if e == 'n' then parseStrAux ('\n' :: acc) cs2
        else if e == 'r' then parseStrAux ('\r' :: acc) cs2
        else if e == 't' then parseStrAux ('\t' :: acc) cs2
        else if e == 'u' then
          match cs2 with
          | h1 :: h2 :: h3 :: h4 :: cs3 =>
            match hexVal h1, hexVal h2, hexVal h3, hexVal h4 with
            | some x1, some x2, some x3, some x4 =>
              parseStrAux (Char.ofNat (((x1 * 16 + x2) * 16 + x3) * 16 + x4) :: acc) cs3
            | _, _, _, _ => none
          | _ => none
        else none
    else parseStrAux (c :: acc) cs

/-- Assemble a parsed numeral into a mantissa/scale value. -/
def mkNum (neg : Bool) (ds fs : List Char) (ex : Option (Bool × List Char)) : Json :=
  let m0 : Nat := natOfDigits (ds ++ fs)
  let sc : Nat := fs.length
  let p : Nat × Nat :=
    match ex with
    | none => (m0, sc)
    | some (true, es) =>
      let e := natOfDigits es
      if sc ≤ e then (m0 * 10 ^ (e - sc), 0) else (m0, sc - e)
    | some (false, es) => (m0, sc + natOfDigits es)
  .num (if neg then -(p.1 : Int) else (p.1 : Int)) p.2

/-- JSON numeral grammar: optional minus, integer part without leading
zeros, optional fraction, optional exponent. -/
def parseNum (cs : List Char) : Option (Json × List Char) :=
  let sp : Bool × List Char :=
    match cs with
    | '-' :: r => (true, r)
    | r => (false, r)
  match digitsTake sp.2 with
  | ([], _) => none
  | (ds, cs2) =>
    if ds.length > 1 && ds.headD '0' == '0' then none
    else
      let fr : Option (List Char × List Char) :=
        match cs2 with
        | '.' :: r =>
          match digitsTake r with
          | ([], _) => none
          | (fs, r2) => some (fs, r2)
        | r => some ([], r)
      match fr with
      | none => none
      | some (fs, cs3) =>
        match cs3 with
        | e :: r =>
          if e == 'e' || e == 'E' then
            let esp : Bool × List Char :=
              match r with
              | '+' :: r2 => (true, r2)
              | '-' :: r2 => (false, r2)
              | r2 => (true, r2)
            match digitsTake esp.2 with
            | ([], _) => none
            | (es, r3) => some (mkNum sp.1 ds fs (some (esp.1, es)), r3)
          else some (mkNum sp.1 ds fs none, e :: r)
        | [] => some (mkNum sp.1 ds fs none, [])

mutual

/-- Fueled JSON value grammar; the fuel strictly exceeds any possible
nesting depth of the input when called through jsonParse. -/
def parseVal : Nat → List Char → Option (Json × List Char)
  | 0, _ => none
  | f + 1, cs =>
    match skipWs cs with
    | [] => none
    | c :: r =>
      if c == '"' then
        match parseStrAux [] r with
        | some (s, r2) => some (.str (String.mk s), r2)
        | none => none
      else if c == lbraceC then
        match skipWs r with
        | c2 :: r2 =>
          if c2 == rbraceC then some (.obj [], r2)
          else
            match parseFields f (c2 :: r2) with
            | some (l, r3) => some (.obj (normalizeFields l), r3)
            | none => none
        | [] => none
      else if c == '[' then
        match skipWs r with
        | c2 :: r2 =>
          if c2 == ']' then some (.arr [], r2)
          else
            match parseItems f (c2 :: r2) with
            | some (l, r3) => some (.arr l, r3)
            | none => none
        | [] => none
      else if c == 't' then
        match r with
        | 'r' :: 'u' :: 'e' :: r2 => some (.bool true, r2)
        | _ => none
      else if c == 'f' then
        match r with
        | 'a' :: 'l' :: 's' :: 'e' :: r2 => some (.bool false, r2)
        | _ => none
      else if c == 'n' then
        match r with
        | 'u' :: 'l' :: 'l' :: r2 => some (.null, r2)
        | _ => none
      else parseNum (c :: r)

/-- Comma-separated array items up to the closing bracket. -/
def parseItems : Nat → List Char → Option (List Json × List Char)
  | 0, _ => none
  | f + 1, cs =>
    match parseVal f cs with
    | none => none
    | some (j, r) =>
      match skipWs r with
      | c :: r2 =>
        if c == ',' then
          match parseItems f r2 with
          | some (l, r3) => some (j :: l, r3)
          | none => none
        else if c == ']' then some ([j], r2)
        else none
      | [] => none

/-- Comma-separated object fields up to the closing brace, in raw order. -/
def parseFields : Nat → List Char → Option (List (String × Json) × List Char)
  | 0, _ => none
  | f + 1, cs =>
    match skipWs cs with
    | '"' :: r =>
      match parseStrAux [] r with
      | none => none
      | some (k, r2) =>
        match skipWs r2 with
        | ':' :: r3 =>
          match parseVal f r3 with
          | none => none
          | some (v, r4) =>
            match skipWs r4 with
            | c :: r5 =>
              if c == ',' then
                match parseFields f r5 with
                | some (l, r6) => some ((String.mk k, v) :: l, r6)
                | none => none
              else if c == rbraceC then some ([(String.mk k, v)], r5)
              else none
            | [] => none
        | _ => none
    | _ => none

end

/-- Model of JSON.parse on character lists: parse one value and require
only whitespace to remain, as JS does. -/
def jsonParse (cs : List Char) : Option Json :=
  match parseVal (cs.length + 2) cs with
  | some (j, rest) => if (skipWs rest).isEmpty then some j else none
  | none => none

/-- Model of JSON.parse on strings. -/
def jsonParseStr (s : String) : Option Json := jsonParse s.data

example : jsonParseStr "5" = some (.num 5 0) := rfl

example : jsonParseStr "\x7b\x7d" = some (.obj []) := rfl

example : jsonParseStr "\x7b\"a\": [1, true, null, \"x\"]\x7d"
    = some (.obj [("a", .arr [.num 1 0, .bool true, .null, .str "x"])]) := rfl

example : jsonParseStr "\x7b\"a\":1" = none := rfl

example : jsonParseStr "not json" = none := rfl

example : jsonParseStr "-12.50" = some (.num (-1250) 2) := rfl

example : jsStr (.num (-1250) 2) = "-12.5" := rfl

example : jsonParseStr "2e3" = some (.num 2000 0) := rfl

example : jsonParseStr "01" = none := rfl

example : jsonParseStr " \"a\\n\" " = some (.str "a\n") := rfl

/-
Stream Relay (ReadableStream start handler, lines 288-324 of
supabase/functions/ai-agent/index.ts).  The handler keeps four locals:
the decode buffer and three accumulators (fullContent, toolCalls, and
the deltas it has enqueued to the caller).  The accumulators are grouped
in RelayCore; buffer is kept separate because each chunk overwrites it.
-/

/-- Accumulator part of the relay state: content gathered so far, the
tool-call fragments pushed so far, and the delta payloads enqueued to
the caller in order (the model of the controller.enqueue calls). -/
structure RelayCore where
  fullContent : List Char
  toolCalls : List Json
  deltas : List Json

/-- Full relay state: the split residue buffer plus the accumulators. -/
structure RelayState where
  buffer : List Char
  core : RelayCore

/-- Fresh relay state (buffer and accumulators empty). -/
def initRelay : RelayState := ⟨[], ⟨[], [], []⟩⟩

/-- Characters of the SSE record marker. -/
def dataPrefix : List Char := "data: ".data

/-- Characters of the terminal sentinel payload. -/
def doneSentinel : List Char := "[DONE]".data

/-- Source lines 314-317: append the content fragment to fullContent and
enqueue it to the caller as a delta event. -/
def pushContent (st : RelayCore) (c : Json) : RelayCore :=
  { st with fullContent := st.fullContent ++ (jsStr c).data,
            deltas := st.deltas ++ [c] }

/-- Source lines 319-321: spread the tool_calls value into the
accumulator when truthy.  Spreading a non-iterable throws inside the
per-line try block, which leaves the state unchanged; spreading a string
yields its characters. -/
def pushTools (st : RelayCore) (t : JsVal) : RelayCore :=
  match t with
  | some (.arr l) => { st with toolCalls := st.toolCalls ++ l }
  | some (.str s) =>
    if s.isEmpty then st
    else { st with toolCalls := st.toolCalls ++ s.data.map (fun ch => Json.str (String.mk [ch])) }
  | _ => st

/-- Source lines 307-322: handle the payload of one data line.  The DONE
sentinel is skipped; a payload that fails JSON.parse is skipped by the
empty catch; property access on a parsed null throws and is caught with
no state change; otherwise the delta is extracted through the optional
chain and its content and tool_calls parts are accumulated. -/
def processData (st : RelayCore) (data : List Char) : RelayCore :=
  if data = doneSentinel then st
  else
    match jsonParse data with
    | none => st
    | some .null => st
    | some p =>
      let delta : JsVal := jsOptField (jsOptIndex (jsOptField (some p) "choices") 0) "delta"
      let cVal : JsVal := jsOptField delta "content"
      let st1 :=
        match cVal with
        | some c => if truthy c then pushContent st c else st
        | none => st
      pushTools st1 (jsOptField delta "tool_calls")

/-- Source lines 303-322: handle one complete line: skip blank lines,
comment lines, and lines without the data marker; otherwise process the
sliced and trimmed payload. -/
def processLine (st : RelayCore) (line : List Char) : RelayCore :=
  if (jsTrim line).isEmpty then st
  else if line.headD ' ' == ':' then st
  else if ! dataPrefix.isPrefixOf line then st
  else processData st (jsTrim (line.drop 6))

/-- Model of the JS split on the newline character: n newlines yield
n + 1 pieces, so the result is never empty. -/
def jsLines : List Char → List (List Char)
  | [] => [[]]
  | c :: cs =>
    if c == '\n' then [] :: jsLines cs
    else
      match jsLines cs with
      | [] => [[c]]
      | l :: ls => (c :: l) :: ls

/-- Source lines 299-323: one read of the upstream stream.  The chunk is
appended to the buffer, the buffer is split on newlines, the final
(possibly incomplete) piece is held back as the new buffer, and every
complete line is processed in order. -/
def processChunk (st : RelayState) (chunk : List Char) : RelayState :=
  let ls := jsLines (st.buffer ++ chunk)
  ⟨ls.getLastD [], ls.dropLast.foldl processLine st.core⟩

/-- Source lines 295-324: the whole read loop over a chunk sequence.  On
stream end the loop breaks and the residual buffer is discarded. -/
def relayFeed (st : RelayState) (chunks : List (List Char)) : RelayState :=
  chunks.foldl processChunk st

/-- Character-level restatement of the decoder: a newline finishes the
buffered line and processes it, any other character extends the buffer.
processChunk is proved extensionally equal to folding this step. -/
def feedChar (st : RelayState) (c : Char) : RelayState :=
  if c == '\n' then ⟨[], processLine st.core st.buffer⟩
  else ⟨st.buffer ++ [c], st.core⟩

theorem jsLines_ne_nil (l : List Char) : jsLines l ≠ [] := by
  induction l with
  | nil => simp [jsLines]
  | cons c cs ih =>
    simp only [jsLines]
    split
    · simp
    · split <;> simp

theorem jsLines_no_newline (l : List Char) (h : '\n' ∉ l) : jsLines l = [l] := by
  induction l with
  | nil => rfl
  | cons c cs ih =>
    simp only [List.mem_cons, not_or] at h
    simp only [jsLines]
    rw [if_neg (by simp only [beq_iff_eq]; exact fun hh => h.1 hh.symm), ih h.2]

theorem jsLines_getLastD_no_newline (l : List Char) : '\n' ∉ (jsLines l).getLastD [] := by
  induction l with
  | nil => simp [jsLines]
  | cons c cs ih =>
    rcases hx : jsLines cs with _ | ⟨x, xs⟩
    · exact absurd hx (jsLines_ne_nil cs)
    · rw [hx] at ih
      simp only [jsLines, hx]
      by_cases hc : c = '\n'
      · rw [if_pos (by simp [hc])]
        simpa [List.getLastD_cons] using ih
      · rw [if_neg (by simp [hc])]
        rcases xs with _ | ⟨y, ys⟩
        · intro hmem
          simp only [List.getLastD_cons, List.getLastD] at ih hmem
          rcases List.mem_cons.mp hmem with h1 | h2
          · exact hc h1.symm
          · exact ih h2
        · simpa [List.getLastD_cons] using ih

theorem jsLines_newline_cons (buf cs : List Char) (h : '\n' ∉ buf) :
    jsLines (buf ++ '\n' :: cs) = buf :: jsLines cs := by
  induction buf with
  | nil => simp [jsLines]
  | cons c r ih =>
    simp only [List.mem_cons, not_or] at h
    show jsLines (c :: (r ++ '\n' :: cs)) = (c :: r) :: jsLines cs
    simp only [jsLines]
    rw [if_neg (by simp only [beq_iff_eq]; exact fun hh => h.1 hh.symm), ih h.2]

theorem processChunk_eq_foldChar (chunk : List Char) (st : RelayState)
    (h : '\n' ∉ st.buffer) :
    processChunk st chunk = chunk.foldl feedChar st := by
  induction chunk generalizing st with
  | nil =>
    simp only [processChunk, List.append_nil, List.foldl_nil]
    rw [jsLines_no_newline st.buffer h]
    simp
  | cons c cs ih =>
    by_cases hc : c = '\n'
    · subst hc
      have hstep : jsLines (st.buffer ++ '\n' :: cs) = st.buffer :: jsLines cs :=
        jsLines_newline_cons st.buffer cs h
      rcases hx : jsLines cs with _ | ⟨x, xs⟩
      · exact absurd hx (jsLines_ne_nil cs)
      · have lhs : processChunk st ('\n' :: cs)
            = ⟨(x :: xs).getLastD [], (st.buffer :: (x :: xs).dropLast).foldl processLine st.core⟩ := by
          simp only [processChunk, hstep, hx]
          rcases xs with _ | ⟨y, ys⟩ <;> simp [List.getLastD_cons]
        have rhs : ('\n' :: cs).foldl feedChar st
            = processChunk ⟨[], processLine st.core st.buffer⟩ cs := by
          simp only [List.foldl_cons, feedChar, if_pos rfl]
          exact (ih ⟨[], processLine st.core st.buffer⟩ (by simp)).symm
        rw [lhs, rhs]
        simp only [processChunk, List.nil_append, hx, List.foldl_cons]
    · have hb2 : '\n' ∉ st.buffer ++ [c] := by
        simp only [List.mem_append, List.mem_singleton, not_or]
        exact ⟨h, fun hh => hc hh.symm⟩
      have lhs : processChunk st (c :: cs) = processChunk ⟨st.buffer ++ [c], st.core⟩ cs := by
        simp only [processChunk]
        rw [show st.buffer ++ c :: cs = (st.buffer ++ [c]) ++ cs by simp]
      rw [lhs, ih ⟨st.buffer ++ [c], st.core⟩ hb2]
      simp only [List.foldl_cons, feedChar]
      rw [if_neg (by simp only [beq_iff_eq]; exact hc)]

theorem processChunk_buffer_no_newline (st : RelayState) (chunk : List Char) :
    '\n' ∉ (processChunk st chunk).buffer := by
  simp only [processChunk]
  exact jsLines_getLastD_no_newline (st.buffer ++ chunk)

theorem relayFeed_eq_foldChar (chunks : List (List Char)) (st : RelayState)
    (h : '\n' ∉ st.buffer) :
    relayFeed st chunks = chunks.flatten.foldl feedChar st := by
  induction chunks generalizing st with
  | nil => rfl
  | cons a rest ih =>
    simp only [relayFeed, List.foldl_cons, List.flatten_cons, List.foldl_append]
    rw [← processChunk_eq_foldChar a st h]
    exact ih (processChunk st a) (processChunk_buffer_no_newline st a)

/-- Claim C3: chunk decoding is split-invariant.  Decoding any two chunk
sequences carrying the same character stream (in particular, a sequence
that splits an SSE record across reads versus one that delivers every
line whole) leaves the relay in the same state: same forwarded deltas,
same accumulated content, same accumulated tool-call list. -/
theorem relay_split_invariant (st : RelayState) (cs1 cs2 : List (List Char))
    (hb : '\n' ∉ st.buffer) (h : cs1.flatten = cs2.flatten) :
    relayFeed st cs1 = relayFeed st cs2 := by
  rw [relayFeed_eq_foldChar cs1 st hb, relayFeed_eq_foldChar cs2 st hb, h]

/-- Witness for C3 at a concrete split: a chunking that cuts one SSE
record in the middle of its JSON payload decodes exactly like the whole
record arriving in one read. -/
theorem relay_split_invariant_witness :
    ('\n' ∉ initRelay.buffer)
    ∧ ([("data: \x7b\"choices\":[\x7b\"del" : String).data,
        ("ta\":\x7b\"content\":\"hi\"\x7d\x7d]\x7d\n" : String).data].flatten
        = [("data: \x7b\"choices\":[\x7b\"delta\":\x7b\"content\":\"hi\"\x7d\x7d]\x7d\n" : String).data].flatten)
    ∧ relayFeed initRelay
        [("data: \x7b\"choices\":[\x7b\"del" : String).data,
         ("ta\":\x7b\"content\":\"hi\"\x7d\x7d]\x7d\n" : String).data]
      = relayFeed initRelay
        [("data: \x7b\"choices\":[\x7b\"delta\":\x7b\"content\":\"hi\"\x7d\x7d]\x7d\n" : String).data] :=
  ⟨by decide, rfl, relay_split_invariant initRelay _ _ (by decide) rfl⟩

theorem skipWs_eq_nil (l : List Char) (h : skipWs l = []) :
    ∀ c ∈ l, isWsChar c = true := by
  induction l with
  | nil => simp
  | cons c cs ih =>
    intro x hx
    simp only [skipWs] at h
    by_cases hw : isWsChar c = true
    · rw [if_pos hw] at h
      rcases List.mem_cons.mp hx with h1 | h2
      · rwa [h1]
      · exact ih h x h2
    · rw [if_neg hw] at h
      exact absurd h (by simp)

theorem jsTrim_cons_not_ws (d : Char) (rest : List Char) (hd : isWsChar d = false) :
    (jsTrim (d :: rest)).isEmpty = false := by
  have h1 : skipWs (d :: rest) = d :: rest := by
    simp only [skipWs]
    rw [if_neg (by simp [hd])]
  by_contra hcon
  have h2 : (skipWs (skipWs (d :: rest)).reverse).reverse.isEmpty = true := by
    revert hcon
    simp only [jsTrim]
    cases (skipWs (skipWs (d :: rest)).reverse).reverse.isEmpty <;> simp
  rw [h1] at h2
  have h3 : skipWs (d :: rest).reverse = [] := by
    have := List.isEmpty_iff.mp h2
    simpa using this
  have h4 := skipWs_eq_nil _ h3 d (by simp)
  rw [hd] at h4
  exact absurd h4 (by simp)

theorem isPrefixOf_append_self (l t : List Char) : l.isPrefixOf (l ++ t) = true :=
  List.isPrefixOf_iff_prefix.mpr (List.prefix_append l t)

theorem processLine_data (core : RelayCore) (p : List Char) :
    processLine core (dataPrefix ++ p) = processData core (jsTrim p) := by
  have hshape : dataPrefix ++ p = 'd' :: ("ata: ".data ++ p) := rfl
  simp only [processLine]
  rw [if_neg (by rw [hshape]; rw [jsTrim_cons_not_ws 'd' _ (by decide)]; simp)]
  rw [if_neg (by rw [hshape]; simp only [List.headD_cons]; decide)]
  rw [if_neg (by rw [isPrefixOf_append_self]; simp)]
  rw [show (6 : Nat) = dataPrefix.length from rfl, List.drop_left]

theorem processData_parse_fail (core : RelayCore) (p : List Char)
    (h : jsonParse p = none) : processData core p = core := by
  simp only [processData]
  split
  · rfl
  · rw [h]

theorem foldl_feedChar_no_newline (l : List Char) (st : RelayState) (h : '\n' ∉ l) :
    l.foldl feedChar st = ⟨st.buffer ++ l, st.core⟩ := by
  induction l generalizing st with
  | nil => simp
  | cons c cs ih =>
    simp only [List.mem_cons, not_or] at h
    simp only [List.foldl_cons, feedChar]
    rw [if_neg (by simp only [beq_iff_eq]; exact fun hh => h.1 hh.symm)]
    rw [ih _ h.2]
    simp

theorem feedChar_newline (st : RelayState) :
    feedChar st '\n' = ⟨[], processLine st.core st.buffer⟩ := by
  simp [feedChar]

/-- Helper shared by the sentinel-skip and malformed-frame claims: a
complete line whose payload leaves processData unchanged contributes
nothing to the relay run, and everything after it is still processed. -/
theorem relay_line_skip (st : RelayState) (pre payload post : List Char)
    (hb : '\n' ∉ st.buffer) (hp : '\n' ∉ payload)
    (hskip : ∀ core, processData core (jsTrim payload) = core) :
    relayFeed st [pre ++ ['\n'] ++ (dataPrefix ++ payload) ++ ['\n'] ++ post]
      = relayFeed st [pre ++ ['\n'] ++ post] := by
  have hdp : '\n' ∉ dataPrefix := by decide
  rw [relayFeed_eq_foldChar _ st hb, relayFeed_eq_foldChar _ st hb]
  simp only [List.flatten_cons, List.flatten_nil, List.append_nil, List.foldl_append]
  have hbuf : (feedChar (List.foldl feedChar st pre) '\n').buffer = [] := by
    simp [feedChar]
  have key : List.foldl feedChar
      (List.foldl feedChar
        (List.foldl feedChar (List.foldl feedChar (List.foldl feedChar st pre) ['\n']) dataPrefix)
        payload) ['\n']
      = List.foldl feedChar (List.foldl feedChar st pre) ['\n'] := by
    rw [foldl_feedChar_no_newline dataPrefix _ hdp, foldl_feedChar_no_newline payload _ hp]
    simp only [List.foldl_cons, List.foldl_nil]
    rw [feedChar_newline]
    dsimp only
    rw [hbuf]
    simp only [List.nil_append]
    rw [processLine_data, hskip]
    rw [← hbuf]
  rw [key]

/-- Claim C7: one malformed data line (payload that fails JSON.parse)
amid well-formed lines is silently skipped: the relay run over a stream
containing it equals the run over the same stream without it, so every
valid delta before and after is still forwarded in arrival order and the
stream is not aborted. -/
theorem relay_malformed_line_isolated (st : RelayState) (pre payload post : List Char)
    (hb : '\n' ∉ st.buffer) (hp : '\n' ∉ payload)
    (hparse : jsonParse (jsTrim payload) = none) :
    relayFeed st [pre ++ ['\n'] ++ (dataPrefix ++ payload) ++ ['\n'] ++ post]
      = relayFeed st [pre ++ ['\n'] ++ post] :=
  relay_line_skip st pre payload post hb hp
    (fun core => processData_parse_fail core _ hparse)

/-- Witness for C7: dropping a concrete malformed frame between two valid
content frames leaves the run unchanged, and both runs still forward the
surrounding deltas. -/
theorem relay_malformed_line_isolated_witness :
    ('\n' ∉ initRelay.buffer)
    ∧ ('\n' ∉ ("\x7boops" : String).data)
    ∧ jsonParse (jsTrim ("\x7boops" : String).data) = none
    ∧ relayFeed initRelay
        [("data: \x7b\"choices\":[\x7b\"delta\":\x7b\"content\":\"a\"\x7d\x7d]\x7d" : String).data
          ++ ['\n'] ++ (dataPrefix ++ ("\x7boops" : String).data) ++ ['\n']
          ++ ("data: \x7b\"choices\":[\x7b\"delta\":\x7b\"content\":\"b\"\x7d\x7d]\x7d\n" : String).data]
      = relayFeed initRelay
        [("data: \x7b\"choices\":[\x7b\"delta\":\x7b\"content\":\"a\"\x7d\x7d]\x7d" : String).data
          ++ ['\n']
          ++ ("data: \x7b\"choices\":[\x7b\"delta\":\x7b\"content\":\"b\"\x7d\x7d]\x7d\n" : String).data]
    ∧ (relayFeed initRelay
        [("data: \x7b\"choices\":[\x7b\"delta\":\x7b\"content\":\"a\"\x7d\x7d]\x7d" : String).data
          ++ ['\n']
          ++ ("data: \x7b\"choices\":[\x7b\"delta\":\x7b\"content\":\"b\"\x7d\x7d]\x7d\n" : String).data]).core.deltas
      = [Json.str "a", Json.str "b"] :=
  ⟨by decide, by decide, rfl,
   relay_malformed_line_isolated initRelay _ _ _ (by decide) (by decide) rfl, rfl⟩

theorem processData_done (core : RelayCore) : processData core doneSentinel = core := by
  simp [processData]

/-- Claim C4 as amended: the data [DONE] sentinel line is itself ignored
(neither forwarded nor parsed) and the relay keeps reading the upstream
stream; the source uses a bare continue for the sentinel, so it does not
stop later lines from being processed and forwarded. -/
theorem relay_done_line_skipped (st : RelayState) (pre post : List Char)
    (hb : '\n' ∉ st.buffer) :
    relayFeed st [pre ++ ['\n'] ++ (dataPrefix ++ doneSentinel) ++ ['\n'] ++ post]
      = relayFeed st [pre ++ ['\n'] ++ post] :=
  relay_line_skip st pre doneSentinel post hb (by decide)
    (fun core => by rw [show jsTrim doneSentinel = doneSentinel from rfl, processData_done])

/-- Witness for the amended C4: removing a concrete DONE line leaves the
relay run unchanged, and the content delta arriving after the sentinel is
still forwarded. -/
theorem relay_done_line_skipped_witness :
    ('\n' ∉ initRelay.buffer)
    ∧ relayFeed initRelay
        [[] ++ ['\n'] ++ (dataPrefix ++ doneSentinel) ++ ['\n']
          ++ ("data: \x7b\"choices\":[\x7b\"delta\":\x7b\"content\":\"x\"\x7d\x7d]\x7d\n" : String).data]
      = relayFeed initRelay
        [[] ++ ['\n']
          ++ ("data: \x7b\"choices\":[\x7b\"delta\":\x7b\"content\":\"x\"\x7d\x7d]\x7d\n" : String).data]
    ∧ (relayFeed initRelay
        [[] ++ ['\n'] ++ (dataPrefix ++ doneSentinel) ++ ['\n']
          ++ ("data: \x7b\"choices\":[\x7b\"delta\":\x7b\"content\":\"x\"\x7d\x7d]\x7d\n" : String).data]).core.deltas
      = [Json.str "x"] :=
  ⟨by decide, relay_done_line_skipped initRelay _ _ (by decide), rfl⟩

/-- Counterexample to claim C4 as stated: after the upstream delivers the
data [DONE] sentinel line, a later well-formed content line is still
forwarded to the caller (the deltas list receives the fragment that
arrives after the sentinel), contradicting that no further content
deltas are forwarded once [DONE] has been consumed. -/
theorem relay_forwards_after_done_cex :
    (relayFeed initRelay
        [("data: [DONE]\ndata: \x7b\"choices\":[\x7b\"delta\":\x7b\"content\":\"x\"\x7d\x7d]\x7d\n" : String).data]).core.deltas
      = [Json.str "x"]
    ∧ (relayFeed initRelay
        [("data: [DONE]\ndata: \x7b\"choices\":[\x7b\"delta\":\x7b\"content\":\"x\"\x7d\x7d]\x7d\n" : String).data]).core.fullContent
      = ['x'] :=
  ⟨rfl, rfl⟩

/-- Concatenation of the string coercions of the forwarded deltas. -/
def contentOfDeltas (ds : List Json) : List Char :=
  (ds.map (fun j => (jsStr j).data)).flatten

theorem pushTools_fullContent (st : RelayCore) (t : JsVal) :
    (pushTools st t).fullContent = st.fullContent := by
  simp only [pushTools]
  split
  · rfl
  · split
    · rfl
    · rfl
  · rfl

theorem pushTools_deltas (st : RelayCore) (t : JsVal) :
    (pushTools st t).deltas = st.deltas := by
  simp only [pushTools]
  split
  · rfl
  · split
    · rfl
    · rfl
  · rfl

theorem processData_sync (core : RelayCore) (d : List Char)
    (h : core.fullContent = contentOfDeltas core.deltas) :
    (processData core d).fullContent = contentOfDeltas (processData core d).deltas := by
  simp only [processData]
  split
  · exact h
  · split
    · exact h
    · exact h
    · rw [pushTools_fullContent, pushTools_deltas]
      split
      · split
        · simp only [pushContent, contentOfDeltas, List.map_append, List.flatten_append]
          rw [h]
          simp [contentOfDeltas]
        · exact h
      · exact h

theorem processLine_sync (core : RelayCore) (l : List Char)
    (h : core.fullContent = contentOfDeltas core.deltas) :
    (processLine core l).fullContent = contentOfDeltas (processLine core l).deltas := by
  simp only [processLine]
  split
  · exact h
  · split
    · exact h
    · split
      · exact h
      · exact processData_sync core _ h

theorem foldl_processLine_sync (ls : List (List Char)) (core : RelayCore)
    (h : core.fullContent = contentOfDeltas core.deltas) :
    (ls.foldl processLine core).fullContent
      = contentOfDeltas (ls.foldl processLine core).deltas := by
  induction ls generalizing core with
  | nil => exact h
  | cons a rest ih => exact ih _ (processLine_sync core a h)

theorem relayFeed_sync (chunks : List (List Char)) (st : RelayState)
    (h : st.core.fullContent = contentOfDeltas st.core.deltas) :
    (relayFeed st chunks).core.fullContent
      = contentOfDeltas (relayFeed st chunks).core.deltas := by
  induction chunks generalizing st with
  | nil => exact h
  | cons a rest ih =>
    exact ih (processChunk st a) (foldl_processLine_sync _ _ h)

/-
Tool Executor (executeToolsParallel / executeSingleTool, lines 428-674).
The supabase client and the invoked edge functions are external
collaborators; each awaited operation is modeled by an oracle field of
ToolEnv giving either its returned data or the message of a rejection,
and each write that the handler performs is recorded as an Effect value.
-/

/-- Plain property read on a value already known not to be null (the
handlers below reach it only after a first access has succeeded). -/
def jsProp (j : Json) (k : String) : JsVal :=
  match j with
  | .obj fs => lookupField fs k
  | _ => none

/-- Coercion used inside template literals for the (v or empty) idiom. -/
def jsStrOrEmpty (v : JsVal) : String := jsStr (jsOr v (.str ""))

/-- Model of Object.keys: throws on null and undefined, lists the keys of
an object, the index strings of a string, and is empty otherwise. -/
def objKeysE : JsVal → Except String (List String)
  | none => .error "TypeError: Object.keys of undefined"
  | some .null => .error "TypeError: Object.keys of null"
  | some (.obj fs) => .ok (fs.map Prod.fst)
  | some (.str s) => .ok ((List.range s.length).map toString)
  | some _ => .ok []

/-- Model of a plain join call: only arrays have one. -/
def jsJoinE : JsVal → String → Except String String
  | some (.arr l), sep => .ok (String.intercalate sep (jsStrList l))
  | none, _ => .error "TypeError: join of undefined"
  | some .null, _ => .error "TypeError: join of null"
  | some _, _ => .error "TypeError: join is not a function"

/-- Model of an optional-chained join: null and undefined yield
undefined, arrays join, anything else throws. -/
def jsJoinOptE : JsVal → String → Except String (Option String)
  | none, _ => .ok none
  | some .null, _ => .ok none
  | some (.arr l), sep => .ok (some (String.intercalate sep (jsStrList l)))
  | some _, _ => .error "TypeError: join is not a function"

/-- Model of a toLowerCase call: only strings have one. -/
def toLowerE : JsVal → Except String String
  | some (.str s) => .ok s.toLower
  | none => .error "TypeError: toLowerCase of undefined"
  | some .null => .error "TypeError: toLowerCase of null"
  | some _ => .error "TypeError: toLowerCase is not a function"

/-- Per-call outcome oracle for every operation a tool handler awaits.
An error value models a rejected promise (caught by the handler and
turned into a failed result); ok carries the data the source reads.  The
defaults describe an all-successful environment used by witnesses.  For
the generate-poa invocation the pair is the destructured data and the
message of the returned error object, if any. -/
structure ToolEnv where
  poaInvoke : Except String (JsVal × Option String) := .ok (some (.obj [("pdfUrl", .str "u")]), none)
  poaHac : Except String Unit := .ok ()
  taskInsert : Except String Unit := .ok ()
  ocrInvoke : Except String Unit := .ok ()
  masterUpdate : Except String Unit := .ok ()
  masterHac : Except String Unit := .ok ()
  archiveInsert : Except String Unit := .ok ()
  archiveHac : Except String Unit := .ok ()
  obyMasterSelect : Except String JsVal := .ok (some (.obj []))
  obySelect : Except String JsVal := .ok (some .null)
  obyWrite : Except String Unit := .ok ()
  obyHac : Except String Unit := .ok ()
  wscHac : Except String Unit := .ok ()
  wscMasterUpdate : Except String Unit := .ok ()
  civilTaskInsert : Except String Unit := .ok ()
  civilHac : Except String Unit := .ok ()

/-- All-successful oracle. -/
def okToolEnv : ToolEnv := {}

/-- One recorded side effect of the agent function: a database write, an
edge-function invocation, or an audit log insert, with the field values
the source passes.  reqLog is the request-level hac_logs insert of the
serve handler (lines 401-413); toolLog covers the hac_logs inserts made
inside tool handlers. -/
inductive Effect where
  | convInsert (case_id : String) (agent_type : String)
  | msgInsert (conversation_id : String) (role : String) (content : String)
      (tool_calls : Option (List Json))
  | reqLog (case_id : String) (action_type : String) (action_details : String)
      (performed_by : String) (response_preview : String)
      (conversation_id : Option String) (tools_used : Nat)
  | funcInvoke (fn : String) (body : List (String × JsVal))
  | taskInsert (case_id : JsVal) (title : JsVal) (description : Json) (priority : JsVal)
      (category : Json) (due_date : Option Json) (status : String)
  | masterUpdate (case_id : JsVal) (fields : JsVal)
  | masterNotesUpdate (case_id : JsVal) (family_notes : String)
  | archiveInsert (case_id : JsVal) (person_type : JsVal) (document_types : JsVal)
      (archive_name : Json) (search_type : String) (status : String) (priority : String)
  | obyInsert (case_id : JsVal) (form_data : JsVal) (auto_populated_fields : Json)
      (status : String) (hac_approved : Bool)
  | obyUpdate (target_id : JsVal) (case_id : JsVal) (form_data : JsVal)
      (auto_populated_fields : Json) (status : String) (hac_approved : Bool)
  | toolLog (case_id : JsVal) (action_type : String) (action_details : String)
      (performed_by : String) (related_wsc : Option JsVal)
      (metadata : Option (List (String × JsVal)))

/-- Result object of one handler: the success flag, the message, and the
optional pdfUrl payload (present only for generate_poa_pdf). -/
structure ToolOutcome where
  success : Bool
  message : String
  pdfUrl : Option JsVal

/-- The record executeSingleTool returns for one call. -/
structure ToolResult where
  tool_call_id : JsVal
  name : JsVal
  result : ToolOutcome

/-- Failure outcome produced by the per-handler catch blocks, which
prefix the caught message. -/
def failedOut (m : String) : ToolOutcome := ⟨false, "Failed: " ++ m, none⟩

/-- Case generate_poa_pdf (lines 441-464): invoke the generate-poa edge
function, throw on a returned error, log an audit entry, return the
artifact reference. -/
def poaPdfHandler (args : Json) (env : ToolEnv) (uid : String) : ToolOutcome × List Effect :=
  match jsPropE (some args) "caseId" with
  | .error m => (failedOut m, [])
  | .ok c =>
    let pt := jsProp args "poaType"
    let eff := Effect.funcInvoke "generate-poa" [("caseId", c), ("poaType", pt)]
    match env.poaInvoke with
    | .error m => (failedOut m, [eff])
    | .ok (pdfData, pdfError) =>
      match pdfError with
      | some m => (failedOut m, [eff])
      | none =>
        let ok : ToolOutcome :=
          ⟨true, "✅ POA (" ++ jsStrV pt ++ ") generated", some (jsOptField pdfData "pdfUrl")⟩
        let eff2 := Effect.toolLog c "poa_generated"
          ("AI auto-generated " ++ jsStrV pt ++ " POA: " ++ jsStrOrEmpty (jsProp args "reason"))
          uid none none
        match env.poaHac with
        | .error m => (failedOut m, [eff, eff2])
        | .ok _ => (ok, [eff, eff2])

/-- Case create_task (lines 466-482): insert a pending task row built
from the arguments with the defaulted fields. -/
def createTaskHandler (args : Json) (env : ToolEnv) : ToolOutcome × List Effect :=
  match jsPropE (some args) "caseId" with
  | .error m => (failedOut m, [])
  | .ok c =>
    let t := jsProp args "title"
    let eff := Effect.taskInsert c t (jsOr (jsProp args "description") (.str ""))
      (jsProp args "priority") (jsOr (jsProp args "category") (.str "general"))
      (some (jsOr (jsProp args "dueDate") .null)) "pending"
    match env.taskInsert with
    | .error m => (failedOut m, [eff])
    | .ok _ => (⟨true, "✅ Task created: " ++ jsStrV t, none⟩, [eff])

/-- Case trigger_ocr (lines 484-494): invoke the ocr-document edge
function and report success. -/
def triggerOcrHandler (args : Json) (env : ToolEnv) : ToolOutcome × List Effect :=
  match jsPropE (some args) "documentId" with
  | .error m => (failedOut m, [])
  | .ok did =>
    let eff := Effect.funcInvoke "ocr-document"
      [("documentId", did), ("expectedType", jsProp args "expectedType")]
    match env.ocrInvoke with
    | .error m => (failedOut m, [eff])
    | .ok _ => (⟨true, "✅ OCR triggered", none⟩, [eff])

/-- Case update_master_data (lines 496-515): apply the partial update,
report the number of updated keys, and log an audit entry listing them. -/
def updateMasterHandler (args : Json) (env : ToolEnv) (uid : String) : ToolOutcome × List Effect :=
  match jsPropE (some args) "fields" with
  | .error m => (failedOut m, [])
  | .ok f =>
    let c := jsProp args "caseId"
    let eff := Effect.masterUpdate c f
    match env.masterUpdate with
    | .error m => (failedOut m, [eff])
    | .ok _ =>
      match objKeysE f with
      | .error m => (failedOut m, [eff])
      | .ok keys =>
        let ok : ToolOutcome := ⟨true, "✅ Updated " ++ toString keys.length ++ " fields", none⟩
        let eff2 := Effect.toolLog c "master_data_updated"
          ("AI updated: " ++ String.intercalate ", " keys ++ ". "
            ++ jsStrOrEmpty (jsProp args "reason"))
          uid none (some [("updated_fields", f)])
        match env.masterHac with
        | .error m => (failedOut m, [eff, eff2])
        | .ok _ => (ok, [eff, eff2])

/-- Case generate_archive_request (lines 517-544): insert a pending
archive-search row and log an audit entry. -/
def archiveHandler (args : Json) (env : ToolEnv) (uid : String) : ToolOutcome × List Effect :=
  match jsPropE (some args) "caseId" with
  | .error m => (failedOut m, [])
  | .ok c =>
    let pt := jsProp args "personType"
    let dts := jsProp args "documentTypes"
    let eff := Effect.archiveInsert c pt dts
      (jsOr (jsProp args "archiveLocation") (.str "To be determined"))
      "international" "pending" "medium"
    match env.archiveInsert with
    | .error m => (failedOut m, [eff])
    | .ok _ =>
      match jsJoinE dts ", " with
      | .error m => (failedOut m, [eff])
      | .ok dj =>
        let ok : ToolOutcome :=
          ⟨true, "✅ Archive request created for " ++ jsStrV pt ++ ": " ++ dj, none⟩
        let eff2 := Effect.toolLog c "archive_request_created"
          ("AI created archive request for " ++ jsStrV pt ++ " documents") uid none none
        match env.archiveHac with
        | .error m => (failedOut m, [eff, eff2])
        | .ok _ => (ok, [eff, eff2])

/-- Case create_oby_draft (lines 546-595), oracle view: read the master
row (required), look for an existing draft, then update it or insert a
fresh one, and log which happened.  The explicit state-passing view used
for the idempotence claim is createObyDraftStep below. -/
def createObyHandler (args : Json) (env : ToolEnv) (uid : String) : ToolOutcome × List Effect :=
  match jsPropE (some args) "caseId" with
  | .error m => (failedOut m, [])
  | .ok c =>
    match env.obyMasterSelect with
    | .error m => (failedOut m, [])
    | .ok masterData =>
      if !truthyV masterData then (failedOut "Master data not found", [])
      else
        match env.obySelect with
        | .error m => (failedOut m, [])
        | .ok existingOby =>
          let apfv := jsOr (jsProp args "autoPopulatedFields") (.arr [])
          let nAuto := jsStrV (some (jsOr (jsLenV (jsProp args "autoPopulatedFields")) (.num 0 0)))
          let updating := truthyV existingOby
          let effW :=
            if updating then
              Effect.obyUpdate (jsOptField existingOby "id") c masterData apfv "draft" false
            else Effect.obyInsert c masterData apfv "draft" false
          match env.obyWrite with
          | .error m => (failedOut m, [effW])
          | .ok _ =>
            let ok : ToolOutcome :=
              ⟨true, "✅ OBY draft " ++ (if updating then "updated" else "created")
                ++ " with " ++ nAuto ++ " auto-populated fields", none⟩
            let eff2 := Effect.toolLog c "oby_draft_created"
              ("AI " ++ (if updating then "updated" else "created") ++ " OBY draft skeleton")
              uid none none
            match env.obyHac with
            | .error m => (failedOut m, [effW, eff2])
            | .ok _ => (ok, [effW, eff2])

/-- Case draft_wsc_response (lines 597-631): log the strategy with the
joined key points, and when a letter id is given also write the strategy
summary onto the master-record notes. -/
def wscHandler (args : Json) (env : ToolEnv) (uid : String) : ToolOutcome × List Effect :=
  match jsPropE (some args) "keyPoints" with
  | .error m => (failedOut m, [])
  | .ok kp =>
    match jsJoinOptE kp "; " with
    | .error m => (failedOut m, [])
    | .ok sdOpt =>
      let sd :=
        match sdOpt with
        | some s => if s.isEmpty then "Strategy drafted by AI" else s
        | none => "Strategy drafted by AI"
      let st := jsProp args "strategy"
      match toLowerE st with
      | .error m => (failedOut m, [])
      | .ok lower =>
        let c := jsProp args "caseId"
        let wid := jsProp args "wscLetterId"
        let eff := Effect.toolLog c ("wsc_response_" ++ lower)
          ("AI drafted " ++ jsStrV st ++ " strategy: " ++ sd) uid
          (some (if truthyV wid then wid else some .null))
          (some [("strategy", st), ("key_points", kp)])
        match env.wscHac with
        | .error m => (failedOut m, [eff])
        | .ok _ =>
          if truthyV wid then
            let eff2 := Effect.masterNotesUpdate c
              ("WSC Strategy (" ++ jsStrV st ++ "): " ++ sd)
            match env.wscMasterUpdate with
            | .error m => (failedOut m, [eff, eff2])
            | .ok _ =>
              (⟨true, "✅ WSC " ++ jsStrV st ++ " response strategy drafted", none⟩, [eff, eff2])
          else (⟨true, "✅ WSC " ++ jsStrV st ++ " response strategy drafted", none⟩, [eff])

/-- Case generate_civil_acts_request (lines 633-659): insert a
high-priority pending task describing the certificate application and
log an audit entry. -/
def civilActsHandler (args : Json) (env : ToolEnv) (uid : String) : ToolOutcome × List Effect :=
  match jsPropE (some args) "caseId" with
  | .error m => (failedOut m, [])
  | .ok c =>
    let actT := jsProp args "actType"
    let pt := jsProp args "personType"
    let eff := Effect.taskInsert c
      (some (.str ("Submit Polish " ++ jsStrV actT ++ " certificate application")))
      (.str ("AI-generated task: Apply for Polish civil " ++ jsStrV actT
        ++ " certificate for " ++ jsStr (jsOr pt (.str "applicant"))))
      (some (.str "high")) (.str "civil_acts") none "pending"
    match env.civilTaskInsert with
    | .error m => (failedOut m, [eff])
    | .ok _ =>
      let ok : ToolOutcome := ⟨true, "✅ Civil acts " ++ jsStrV actT ++ " request created", none⟩
      let eff2 := Effect.toolLog c "civil_acts_request"
        ("AI created " ++ jsStrV actT ++ " certificate application task") uid none none
      match env.civilHac with
      | .error m => (failedOut m, [eff, eff2])
      | .ok _ => (ok, [eff, eff2])

/-- The eight tool names declared in AGENT_TOOLS (lines 8-168), which the
dispatch switch keeps in lock-step with. -/
def registeredToolNames : List String :=
  ["generate_poa_pdf", "create_task", "trigger_ocr", "update_master_data",
   "generate_archive_request", "create_oby_draft", "draft_wsc_response",
   "generate_civil_acts_request"]

/-- The switch over toolCall.function.name (lines 438-660): result is
initialized to the Unknown tool failure and replaced by the matching
handler; a name matching no case keeps the default and performs nothing. -/
def dispatchTool (name : JsVal) (args : Json) (env : ToolEnv) (uid : String) :
    ToolOutcome × List Effect :=
  if beqJsonV name (some (.str "generate_poa_pdf")) then poaPdfHandler args env uid
  else if beqJsonV name (some (.str "create_task")) then createTaskHandler args env
  else if beqJsonV name (some (.str "trigger_ocr")) then triggerOcrHandler args env
  else if beqJsonV name (some (.str "update_master_data")) then updateMasterHandler args env uid
  else if beqJsonV name (some (.str "generate_archive_request")) then archiveHandler args env uid
  else if beqJsonV name (some (.str "create_oby_draft")) then createObyHandler args env uid
  else if beqJsonV name (some (.str "draft_wsc_response")) then wscHandler args env uid
  else if beqJsonV name (some (.str "generate_civil_acts_request")) then civilActsHandler args env uid
  else (⟨false, "Unknown tool", none⟩, [])

/-- String JSON.parse receives after coercing its argument. -/
def coerceArg (v : JsVal) : String := jsStrV v

/-- Message of the model SyntaxError thrown by a failing JSON.parse. -/
def syntaxErrMsg : String := "SyntaxError: Unexpected token in JSON"

/-- The catch clause of executeSingleTool (lines 667-673): build the
failure record, itself reading toolCall.id and toolCall.function.name;
when one of those reads throws, the promise for this call rejects. -/
def catchClause (toolCall : Json) (m : String) : Except String ToolResult × List Effect :=
  match jsPropE (some toolCall) "id" with
  | .error m2 => (.error m2, [])
  | .ok idVal =>
    match jsPropE (some toolCall) "function" with
    | .error m2 => (.error m2, [])
    | .ok fnVal =>
      match jsPropE fnVal "name" with
      | .error m2 => (.error m2, [])
      | .ok nameVal => (.ok ⟨idVal, nameVal, ⟨false, m, none⟩⟩, [])

/-- executeSingleTool (lines 435-674): parse the argument payload, run
the switch, and return the result record carrying the identifier and the
name of the call; every throw inside the try body lands in catchClause.
The caseId parameter is passed but, as in the source, never read: every
handler takes the case id from its parsed arguments. -/
def executeSingleTool (toolCall : Json) (_caseId : String) (env : ToolEnv) (uid : String) :
    Except String ToolResult × List Effect :=
  match jsPropE (some toolCall) "function" with
  | .error m => catchClause toolCall m
  | .ok fnVal =>
    match jsPropE fnVal "arguments" with
    | .error m => catchClause toolCall m
    | .ok argsVal =>
      match jsonParseStr (coerceArg argsVal) with
      | none => catchClause toolCall syntaxErrMsg
      | some args =>
        match jsPropE fnVal "name" with
        | .error m => catchClause toolCall m
        | .ok nameVal =>
          let re := dispatchTool nameVal args env uid
          match jsPropE (some toolCall) "id" with
          | .error m => ((catchClause toolCall m).1, re.2)
          | .ok idVal =>
            match jsPropE fnVal "name" with
            | .error m => ((catchClause toolCall m).1, re.2)
            | .ok nameVal2 => (.ok ⟨idVal, nameVal2, re.1⟩, re.2)

/-- The Promise.all fan-out (lines 428-432): every call runs against its
own oracle slot (outcomes of the concurrently scheduled operations are
independent per call), and the results keep call order. -/
def runToolCalls (toolCalls : List Json) (caseId : String) (supabase : Nat → ToolEnv)
    (uid : String) : List (Except String ToolResult × List Effect) :=
  match toolCalls with
  | [] => []
  | tc :: rest =>
    executeSingleTool tc caseId (supabase 0) uid
      :: runToolCalls rest caseId (fun i => supabase (i + 1)) uid

/-- Promise.all result collection: positional when every promise
fulfills, a rejection when any call rejects. -/
def collectOk : List (Except String ToolResult) → Except String (List ToolResult)
  | [] => .ok []
  | .ok a :: rest => (collectOk rest).map (fun l => a :: l)
  | .error m :: _ => .error m

/-- executeToolsParallel (lines 428-432): one ToolResult per ToolCall in
call order, with the side effects of every call (collected here in call
order as one representative interleaving). -/
def executeToolsParallel (toolCalls : List Json) (caseId : String) (supabase : Nat → ToolEnv)
    (uid : String) : Except String (List ToolResult) × List Effect :=
  let runs := runToolCalls toolCalls caseId supabase uid
  (collectOk (runs.map Prod.fst), (runs.map Prod.snd).flatten)

/-- A tool call with the shape the model emits: an object whose function
field is an object (carrying name and arguments). -/
def WfCall (tc : Json) : Prop :=
  ∃ fs gs, tc = Json.obj fs ∧ lookupField fs "function" = some (Json.obj gs)

/-- Identifier field of a call. -/
def callId (tc : Json) : JsVal := jsOptField (some tc) "id"

/-- Name field of a call. -/
def callName (tc : Json) : JsVal := jsOptField (jsOptField (some tc) "function") "name"

/-- Argument payload of a call. -/
def callArgs (tc : Json) : JsVal := jsOptField (jsOptField (some tc) "function") "arguments"

theorem executeSingleTool_ok (tc : Json) (cid : String) (env : ToolEnv) (uid : String)
    (h : WfCall tc) :
    ∃ out effs, executeSingleTool tc cid env uid = (.ok ⟨callId tc, callName tc, out⟩, effs) := by
  obtain ⟨fs, gs, rfl, hfn⟩ := h
  rcases hp : jsonParseStr (coerceArg (lookupField gs "arguments")) with _ | args
  · refine ⟨⟨false, syntaxErrMsg, none⟩, [], ?_⟩
    simp only [executeSingleTool, jsPropE, hfn, hp, catchClause, callId, callName, jsOptField]
  · refine ⟨(dispatchTool (lookupField gs "name") args env uid).1,
      (dispatchTool (lookupField gs "name") args env uid).2, ?_⟩
    simp only [executeSingleTool, jsPropE, hfn, hp, callId, callName, jsOptField]

/-- Claim C1: for every batch of well-formed tool calls, the executor
fulfills with one result per call, and the i-th result carries the
identifier and tool name of the i-th call, whatever each handler did. -/
theorem executeToolsParallel_align (toolCalls : List Json) (caseId : String)
    (supabase : Nat → ToolEnv) (uid : String)
    (hwf : ∀ tc ∈ toolCalls, WfCall tc) :
    ∃ rs, (executeToolsParallel toolCalls caseId supabase uid).1 = .ok rs
      ∧ rs.length = toolCalls.length
      ∧ (∀ i, (rs.get? i).map ToolResult.tool_call_id = (toolCalls.get? i).map callId)
      ∧ (∀ i, (rs.get? i).map ToolResult.name = (toolCalls.get? i).map callName) := by
  induction toolCalls generalizing supabase with
  | nil =>
    exact ⟨[], rfl, rfl, fun i => by cases i <;> rfl, fun i => by cases i <;> rfl⟩
  | cons tc rest ih =>
    obtain ⟨out, effs, hsingle⟩ :=
      executeSingleTool_ok tc caseId (supabase 0) uid (hwf tc (by simp))
    obtain ⟨rs, hok, hlen, hid, hnm⟩ :=
      ih (fun i => supabase (i + 1)) (fun t ht => hwf t (by simp [ht]))
    refine ⟨⟨callId tc, callName tc, out⟩ :: rs, ?_, by simp [hlen], ?_, ?_⟩
    · have hrest : collectOk ((runToolCalls rest caseId (fun i => supabase (i + 1)) uid).map
          Prod.fst) = .ok rs := hok
      simp only [executeToolsParallel, runToolCalls, List.map_cons, hsingle, collectOk]
      rw [hrest]
      rfl
    · intro i
      cases i with
      | zero => rfl
      | succ m => exact hid m
    · intro i
      cases i with
      | zero => rfl
      | succ m => exact hnm m

/-- First call of the C1 witness batch. -/
def c1CallA : Json :=
  .obj [("id", .str "call_a"),
        ("function", .obj [("name", .str "create_task"),
          ("arguments", .str "\x7b\"caseId\":\"C1\",\"title\":\"Collect passport\",\"priority\":\"high\"\x7d")])]

/-- Second call of the C1 witness batch; its payload is malformed, so it
fails, which must not disturb the alignment. -/
def c1CallB : Json :=
  .obj [("id", .str "call_b"),
        ("function", .obj [("name", .str "trigger_ocr"), ("arguments", .str "nonsense")])]

/-- Witness for C1 on a concrete two-call batch (one succeeding call, one
call with a malformed payload). -/
theorem executeToolsParallel_align_witness :
    (∀ tc ∈ [c1CallA, c1CallB], WfCall tc)
    ∧ ∃ rs, (executeToolsParallel [c1CallA, c1CallB] "C1" (fun _ => okToolEnv) "u").1 = .ok rs
        ∧ rs.length = [c1CallA, c1CallB].length
        ∧ (∀ i, (rs.get? i).map ToolResult.tool_call_id = ([c1CallA, c1CallB].get? i).map callId)
        ∧ (∀ i, (rs.get? i).map ToolResult.name = ([c1CallA, c1CallB].get? i).map callName) := by
  have hwf : ∀ tc ∈ [c1CallA, c1CallB], WfCall tc := by
    intro tc htc
    simp only [List.mem_cons, List.not_mem_nil, or_false] at htc
    rcases htc with rfl | rfl
    · exact ⟨_, _, rfl, rfl⟩
    · exact ⟨_, _, rfl, rfl⟩
  exact ⟨hwf, executeToolsParallel_align [c1CallA, c1CallB] "C1" (fun _ => okToolEnv) "u" hwf⟩

theorem dispatchTool_unknown (n : String) (args : Json) (env : ToolEnv) (uid : String)
    (h : ∀ m ∈ registeredToolNames, n ≠ m) :
    dispatchTool (some (.str n)) args env uid = (⟨false, "Unknown tool", none⟩, []) := by
  have hb : ∀ m ∈ registeredToolNames, (n == m) = false :=
    fun m hm => beq_eq_false_iff_ne.mpr (h m hm)
  simp only [dispatchTool, beqJsonV, beqJson]
  rw [if_neg (by simp [hb _ (by decide : "generate_poa_pdf" ∈ registeredToolNames)])]
  rw [if_neg (by simp [hb _ (by decide : "create_task" ∈ registeredToolNames)])]
  rw [if_neg (by simp [hb _ (by decide : "trigger_ocr" ∈ registeredToolNames)])]
  rw [if_neg (by simp [hb _ (by decide : "update_master_data" ∈ registeredToolNames)])]
  rw [if_neg (by simp [hb _ (by decide : "generate_archive_request" ∈ registeredToolNames)])]
  rw [if_neg (by simp [hb _ (by decide : "create_oby_draft" ∈ registeredToolNames)])]
  rw [if_neg (by simp [hb _ (by decide : "draft_wsc_response" ∈ registeredToolNames)])]
  rw [if_neg (by simp [hb _ (by decide : "generate_civil_acts_request" ∈ registeredToolNames)])]

/-- Claim C9: a call whose payload parses but whose name matches none of
the eight registered tools neither throws nor performs any side effect:
it fulfills with the Unknown tool failure result carrying the call
identifier and name, and its effect list is empty. -/
theorem unknown_tool_isolated (tc : Json) (fs gs : List (String × Json)) (n : String)
    (caseId uid : String) (env : ToolEnv)
    (h1 : tc = .obj fs)
    (h2 : lookupField fs "function" = some (.obj gs))
    (h3 : lookupField gs "name" = some (.str n))
    (h4 : ∀ m ∈ registeredToolNames, n ≠ m)
    (h5 : (jsonParseStr (coerceArg (lookupField gs "arguments"))).isSome = true) :
    executeSingleTool tc caseId env uid
      = (.ok ⟨lookupField fs "id", some (.str n), ⟨false, "Unknown tool", none⟩⟩, []) := by
  subst h1
  obtain ⟨args, hargs⟩ := Option.isSome_iff_exists.mp h5
  simp only [executeSingleTool, jsPropE, h2, hargs, h3]
  rw [dispatchTool_unknown n args env uid h4]

/-- A call using a name outside the registry. -/
def c9Call : Json :=
  .obj [("id", .str "call_x"),
        ("function", .obj [("name", .str "foo_tool"), ("arguments", .str "\x7b\x7d")])]

/-- Witness for C9 at a concrete unregistered call. -/
theorem unknown_tool_isolated_witness :
    (∀ m ∈ registeredToolNames, "foo_tool" ≠ m)
    ∧ executeSingleTool c9Call "C1" okToolEnv "u"
      = (.ok ⟨some (.str "call_x"), some (.str "foo_tool"), ⟨false, "Unknown tool", none⟩⟩, []) :=
  ⟨by decide,
   unknown_tool_isolated c9Call _ _ "foo_tool" "C1" "u" okToolEnv rfl rfl rfl (by decide) rfl⟩

/-- A call whose payload is valid JSON but not an object. -/
def c2NumCall : Json :=
  .obj [("id", .str "call_1"),
        ("function", .obj [("name", .str "create_task"), ("arguments", .str "5")])]

/-- Counterexample to claim C2 as stated: the payload 5 deserializes to a
JSON number, not an object, yet the executor does not produce a failed
result for the call — the create_task handler runs on undefined fields
and, its insert succeeding, reports success:true. -/
theorem toolFailure_nonobject_cex :
    jsonParseStr "5" = some (.num 5 0)
    ∧ (executeToolsParallel [c2NumCall] "C1" (fun _ => okToolEnv) "u").1
      = .ok [⟨some (.str "call_1"), some (.str "create_task"),
          ⟨true, "✅ Task created: undefined", none⟩⟩] :=
  ⟨rfl, rfl⟩

theorem executeSingleTool_parse_fail (tc : Json) (cid : String) (env : ToolEnv) (uid : String)
    (hwf : WfCall tc) (hparse : jsonParseStr (coerceArg (callArgs tc)) = none) :
    executeSingleTool tc cid env uid
      = (.ok ⟨callId tc, callName tc, ⟨false, syntaxErrMsg, none⟩⟩, []) := by
  obtain ⟨fs, gs, rfl, hfn⟩ := hwf
  have hargs : callArgs (Json.obj fs) = lookupField gs "arguments" := by
    simp [callArgs, jsOptField, hfn]
  rw [hargs] at hparse
  simp only [executeSingleTool, jsPropE, hfn, hparse, catchClause, callId, callName, jsOptField]

theorem executeSingleTool_dispatch (tc : Json) (cid : String) (env : ToolEnv) (uid : String)
    (hwf : WfCall tc) (args : Json)
    (hp : jsonParseStr (coerceArg (callArgs tc)) = some args) :
    (executeSingleTool tc cid env uid).1
      = .ok ⟨callId tc, callName tc, (dispatchTool (callName tc) args env uid).1⟩ := by
  obtain ⟨fs, gs, rfl, hfn⟩ := hwf
  have hargs : callArgs (Json.obj fs) = lookupField gs "arguments" := by
    simp [callArgs, jsOptField, hfn]
  rw [hargs] at hp
  have hname : callName (Json.obj fs) = lookupField gs "name" := by
    simp [callName, jsOptField, hfn]
  simp only [executeSingleTool, jsPropE, hfn, hp, callId, callName, jsOptField, hname]

theorem runToolCalls_congr (l : List Json) (cid uid : String) (s1 s2 : Nat → ToolEnv)
    (h : ∀ i, i < l.length → s1 i = s2 i) :
    runToolCalls l cid s1 uid = runToolCalls l cid s2 uid := by
  induction l generalizing s1 s2 with
  | nil => rfl
  | cons tc rest ih =>
    simp only [runToolCalls]
    rw [h 0 (by simp)]
    rw [ih (fun i => s1 (i + 1)) (fun i => s2 (i + 1)) (fun i hi => h (i + 1) (by simpa using hi))]

theorem runToolCalls_append (l1 l2 : List Json) (cid uid : String) (sup : Nat → ToolEnv) :
    runToolCalls (l1 ++ l2) cid sup uid
      = runToolCalls l1 cid sup uid
        ++ runToolCalls l2 cid (fun i => sup (i + l1.length)) uid := by
  induction l1 generalizing sup with
  | nil =>
    have he : (fun i => sup (i + ([] : List Json).length)) = sup := by
      funext i
      simp
    rw [he]
    simp [runToolCalls]
  | cons tc rest ih =>
    rw [List.cons_append]
    simp only [runToolCalls, List.length_cons]
    rw [ih (fun i => sup (i + 1))]
    simp only [List.cons_append]
    congr 2

theorem collectOk_append (a b : List (Except String ToolResult)) (ra rb : List ToolResult)
    (ha : collectOk a = .ok ra) (hb : collectOk b = .ok rb) :
    collectOk (a ++ b) = .ok (ra ++ rb) := by
  induction a generalizing ra with
  | nil =>
    simp only [collectOk] at ha
    cases ha
    simpa using hb
  | cons x rest ih =>
    cases x with
    | error m => simp [collectOk] at ha
    | ok r =>
      simp only [collectOk] at ha
      cases hr : collectOk rest with
      | error m =>
        rw [hr] at ha
        simp [Except.map] at ha
      | ok l =>
        rw [hr] at ha
        simp only [Except.map] at ha
        cases ha
        rw [List.cons_append]
        simp only [collectOk]
        rw [ih l hr]
        simp [Except.map]

theorem collectOk_runToolCalls (l : List Json) (cid uid : String) (sup : Nat → ToolEnv)
    (hwf : ∀ tc ∈ l, WfCall tc) :
    ∃ rs, collectOk ((runToolCalls l cid sup uid).map Prod.fst) = .ok rs
      ∧ rs.length = l.length := by
  induction l generalizing sup with
  | nil => exact ⟨[], rfl, rfl⟩
  | cons tc rest ih =>
    obtain ⟨out, effs, hs⟩ := executeSingleTool_ok tc cid (sup 0) uid (hwf tc (by simp))
    obtain ⟨rs, hok, hlen⟩ := ih (fun i => sup (i + 1)) (fun t ht => hwf t (by simp [ht]))
    refine ⟨⟨callId tc, callName tc, out⟩ :: rs, ?_, by simp [hlen]⟩
    simp only [runToolCalls, List.map_cons, hs, collectOk]
    rw [hok]
    rfl

/-- Oracle for the batch with the call at position n removed: slots
before n are unchanged, later slots shift down by one. -/
def shiftOracle (n : Nat) (sup : Nat → ToolEnv) : Nat → ToolEnv :=
  fun i => if i < n then sup i else sup (i + 1)

/-- Claim C2 as amended: a well-formed call whose argument payload fails
to deserialize as JSON, or whose handler fails performing its side
effect (the per-case catch reporting the caught message under the
Failed: prefix), yields for that call only a failed result carrying an
error message; the batch still fulfills (the request does not fail), and
every sibling produces exactly the result it would have produced in the
batch without the failing call.  (As stated the claim also covered
payloads that deserialize to a non-object value; the counterexample
shows the executor runs the handler on those and can report success.) -/
theorem toolFailure_isolated (pre post : List Json) (bad : Json) (caseId uid : String)
    (sup : Nat → ToolEnv)
    (hwfb : WfCall bad)
    (htrig : jsonParseStr (coerceArg (callArgs bad)) = none
      ∨ ∃ args m, jsonParseStr (coerceArg (callArgs bad)) = some args
          ∧ (dispatchTool (callName bad) args (sup pre.length) uid).1 = failedOut m)
    (hwf : ∀ tc ∈ pre ++ post, WfCall tc) :
    ∃ rs rs2 fmsg,
      (fmsg = syntaxErrMsg ∨ ∃ m, fmsg = "Failed: " ++ m)
      ∧ (executeToolsParallel (pre ++ bad :: post) caseId sup uid).1 = .ok rs
      ∧ (executeToolsParallel (pre ++ post) caseId (shiftOracle pre.length sup) uid).1 = .ok rs2
      ∧ rs = rs2.take pre.length
          ++ ⟨callId bad, callName bad, ⟨false, fmsg, none⟩⟩ :: rs2.drop pre.length := by
  have hwfPre : ∀ tc ∈ pre, WfCall tc := fun t ht => hwf t (by simp [ht])
  have hwfPost : ∀ tc ∈ post, WfCall tc := fun t ht => hwf t (by simp [ht])
  obtain ⟨ra, hra, hlen⟩ := collectOk_runToolCalls pre caseId uid sup hwfPre
  obtain ⟨rb, hrb, hlenb⟩ :=
    collectOk_runToolCalls post caseId uid (fun i => sup ((i + 1) + pre.length)) hwfPost
  have hshiftPre : runToolCalls pre caseId (shiftOracle pre.length sup) uid
      = runToolCalls pre caseId sup uid :=
    runToolCalls_congr pre caseId uid _ _ (fun i hi => by simp only [shiftOracle, if_pos hi])
  obtain ⟨fmsg, hmsg, hbad1⟩ :
      ∃ fmsg, (fmsg = syntaxErrMsg ∨ ∃ m, fmsg = "Failed: " ++ m)
        ∧ (executeSingleTool bad caseId (sup (0 + pre.length)) uid).1
            = .ok ⟨callId bad, callName bad, ⟨false, fmsg, none⟩⟩ := by
    rcases htrig with hparse | ⟨args, m, hp, hd⟩
    · refine ⟨syntaxErrMsg, .inl rfl, ?_⟩
      rw [executeSingleTool_parse_fail bad caseId _ uid hwfb hparse]
    · refine ⟨"Failed: " ++ m, .inr ⟨m, rfl⟩, ?_⟩
      rw [executeSingleTool_dispatch bad caseId _ uid hwfb args hp, Nat.zero_add, hd]
      rfl
  refine ⟨ra ++ ⟨callId bad, callName bad, ⟨false, fmsg, none⟩⟩ :: rb, ra ++ rb, fmsg, hmsg,
    ?_, ?_, ?_⟩
  · show collectOk ((runToolCalls (pre ++ bad :: post) caseId sup uid).map Prod.fst) = _
    rw [runToolCalls_append, List.map_append]
    apply collectOk_append _ _ _ _ hra
    simp only [runToolCalls, List.map_cons]
    rw [hbad1]
    simp only [collectOk]
    rw [hrb]
    rfl
  · show collectOk ((runToolCalls (pre ++ post) caseId (shiftOracle pre.length sup) uid).map
        Prod.fst) = _
    rw [runToolCalls_append, hshiftPre]
    rw [runToolCalls_congr post caseId uid (fun i => shiftOracle pre.length sup (i + pre.length))
        (fun i => sup ((i + 1) + pre.length)) (fun i _ => by
          simp only [shiftOracle]
          rw [if_neg (by omega)]
          congr 1
          omega)]
    rw [List.map_append]
    exact collectOk_append _ _ _ _ hra hrb
  · rw [← hlen, List.take_left, List.drop_left]

/-- The well-formed sibling used by the C2 witness. -/
def c2GoodCall : Json :=
  .obj [("id", .str "good_1"),
        ("function", .obj [("name", .str "trigger_ocr"),
          ("arguments", .str "\x7b\"documentId\":\"d1\"\x7d")])]

/-- The failing call of the C2 witness: well-formed and its payload
parses, but its create_task insert is rejected by the oracle. -/
def c2FailCall : Json :=
  .obj [("id", .str "bad_1"),
        ("function", .obj [("name", .str "create_task"),
          ("arguments", .str "\x7b\"caseId\":\"C1\",\"title\":\"t\"\x7d")])]

/-- Oracle of the C2 witness: slot 1 (the failing call) rejects the task
insert, every other slot succeeds everywhere. -/
def c2Sup : Nat → ToolEnv :=
  fun i => if i = 1 then { taskInsert := .error "db down" } else okToolEnv

/-- Witness for the amended C2 on a concrete batch: a good call, then a
call whose task insert is rejected; that call alone fails, carrying the
caught message, and the good call keeps its standalone result. -/
theorem toolFailure_isolated_witness :
    WfCall c2FailCall
    ∧ (jsonParseStr (coerceArg (callArgs c2FailCall)) = none
       ∨ ∃ args m, jsonParseStr (coerceArg (callArgs c2FailCall)) = some args
           ∧ (dispatchTool (callName c2FailCall) args (c2Sup [c2GoodCall].length) "u").1
               = failedOut m)
    ∧ (∀ tc ∈ [c2GoodCall] ++ ([] : List Json), WfCall tc)
    ∧ ∃ rs rs2 fmsg,
        (fmsg = syntaxErrMsg ∨ ∃ m, fmsg = "Failed: " ++ m)
        ∧ (executeToolsParallel ([c2GoodCall] ++ c2FailCall :: []) "C1" c2Sup "u").1 = .ok rs
        ∧ (executeToolsParallel ([c2GoodCall] ++ []) "C1"
            (shiftOracle [c2GoodCall].length c2Sup) "u").1 = .ok rs2
        ∧ rs = rs2.take [c2GoodCall].length
            ++ ⟨callId c2FailCall, callName c2FailCall, ⟨false, fmsg, none⟩⟩
              :: rs2.drop [c2GoodCall].length := by
  have hwfb : WfCall c2FailCall := ⟨_, _, rfl, rfl⟩
  have htrig : jsonParseStr (coerceArg (callArgs c2FailCall)) = none
      ∨ ∃ args m, jsonParseStr (coerceArg (callArgs c2FailCall)) = some args
          ∧ (dispatchTool (callName c2FailCall) args (c2Sup [c2GoodCall].length) "u").1
              = failedOut m :=
    .inr ⟨.obj [("caseId", .str "C1"), ("title", .str "t")], "db down", rfl, rfl⟩
  have hwf : ∀ tc ∈ [c2GoodCall] ++ ([] : List Json), WfCall tc := by
    intro tc htc
    simp only [List.append_nil, List.mem_singleton] at htc
    subst htc
    exact ⟨_, _, rfl, rfl⟩
  exact ⟨hwfb, htrig, hwf,
    toolFailure_isolated [c2GoodCall] [] c2FailCall "C1" "u" c2Sup hwfb htrig hwf⟩

/-
State-passing view of the create_oby_draft handler (lines 546-595), used
for the idempotence claim: the master_table and oby_forms tables are an
explicit state and each awaited operation succeeds.
-/

/-- One row of the oby_forms table as the handler writes it. -/
structure ObyRow where
  id : Nat
  case_id : JsVal
  status : String
  form_data : JsVal
  auto_populated_fields : Json
  hac_approved : Bool

/-- Table state for the handler: master_table rows keyed by their
case_id column, the oby_forms rows, and the id the next insert assigns. -/
structure ObyDb where
  masterRows : List (JsVal × Json)
  obyRows : List ObyRow
  nextId : Nat

/-- Model of the single() read on master_table filtered by case_id: data
is the row when exactly one matches; with zero or several matches data is
null (several make single() return an error, which the handler does not
check — it only tests data for truthiness). -/
def dbMasterSingle (db : ObyDb) (q : JsVal) : JsVal :=
  match db.masterRows.filter (fun r => beqJsonV r.1 q) with
  | [r] => some r.2
  | _ => some .null

/-- Model of the maybeSingle() read on oby_forms filtered by case_id:
the row when exactly one matches, otherwise null data (several matches
make maybeSingle return an error with null data, again unchecked). -/
def dbObyMaybeSingle (db : ObyDb) (q : JsVal) : Option ObyRow :=
  match db.obyRows.filter (fun r => beqJsonV r.case_id q) with
  | [r] => some r
  | _ => none

/-- Rows currently stored for a case. -/
def obyCountFor (db : ObyDb) (q : JsVal) : Nat :=
  (db.obyRows.filter (fun r => beqJsonV r.case_id q)).length

/-- The create_oby_draft handler as a state transformer: read the master
row (required), look for an existing draft for the case, then either
update that row in place by id with the fresh obyData or insert a new
row carrying it. -/
def createObyDraftStep (args : Json) (db : ObyDb) : ToolOutcome × ObyDb :=
  match jsPropE (some args) "caseId" with
  | .error m => (failedOut m, db)
  | .ok c =>
    let masterData := dbMasterSingle db c
    if !truthyV masterData then (failedOut "Master data not found", db)
    else
      let apfv := jsOr (jsProp args "autoPopulatedFields") (.arr [])
      let nAuto := jsStrV (some (jsOr (jsLenV (jsProp args "autoPopulatedFields")) (.num 0 0)))
      match dbObyMaybeSingle db c with
      | some row =>
        let db2 : ObyDb :=
          { db with obyRows := db.obyRows.map (fun r =>
              if r.id == row.id then ⟨r.id, c, "draft", masterData, apfv, false⟩
              else r) }
        (⟨true, "✅ OBY draft updated with " ++ nAuto ++ " auto-populated fields", none⟩, db2)
      | none =>
        let db2 : ObyDb :=
          { db with
            obyRows := db.obyRows ++ [⟨db.nextId, c, "draft", masterData, apfv, false⟩],
            nextId := db.nextId + 1 }
        (⟨true, "✅ OBY draft created with " ++ nAuto ++ " auto-populated fields", none⟩, db2)

theorem map_id_of_mem {α : Type} (l : List α) (f : α → α) (h : ∀ a ∈ l, f a = a) :
    l.map f = l := by
  induction l with
  | nil => rfl
  | cons a t ih =>
    simp only [List.map_cons]
    rw [h a (by simp), ih (fun x hx => h x (by simp [hx]))]

theorem createObyDraftStep_insert (args : Json) (d : ObyDb) (c : String)
    (hc : jsPropE (some args) "caseId" = .ok (some (.str c)))
    (hm : truthyV (dbMasterSingle d (some (.str c))) = true)
    (hsel : dbObyMaybeSingle d (some (.str c)) = none) :
    createObyDraftStep args d
      = (⟨true, "✅ OBY draft created with "
            ++ jsStrV (some (jsOr (jsLenV (jsProp args "autoPopulatedFields")) (.num 0 0)))
            ++ " auto-populated fields", none⟩,
         { d with
           obyRows := d.obyRows ++ [⟨d.nextId, some (.str c), "draft",
             dbMasterSingle d (some (.str c)),
             jsOr (jsProp args "autoPopulatedFields") (.arr []), false⟩],
           nextId := d.nextId + 1 }) := by
  simp [createObyDraftStep, hc, hm, hsel]

theorem createObyDraftStep_update (args : Json) (d : ObyDb) (c : String) (row : ObyRow)
    (hc : jsPropE (some args) "caseId" = .ok (some (.str c)))
    (hm : truthyV (dbMasterSingle d (some (.str c))) = true)
    (hsel : dbObyMaybeSingle d (some (.str c)) = some row) :
    createObyDraftStep args d
      = (⟨true, "✅ OBY draft updated with "
            ++ jsStrV (some (jsOr (jsLenV (jsProp args "autoPopulatedFields")) (.num 0 0)))
            ++ " auto-populated fields", none⟩,
         { d with obyRows := d.obyRows.map (fun r =>
             if r.id == row.id then
               ⟨r.id, some (.str c), "draft", dbMasterSingle d (some (.str c)),
                jsOr (jsProp args "autoPopulatedFields") (.arr []), false⟩
             else r) }) := by
  simp [createObyDraftStep, hc, hm, hsel]

/-- Claim C8: with the master record present and no existing draft,
invoking create_oby_draft twice for the same case leaves exactly one
oby_forms row for that case: the first call inserts, the second updates
in place instead of inserting a duplicate, and both calls succeed. -/
theorem create_oby_draft_idempotent (args : Json) (db : ObyDb) (c : String)
    (hc : jsPropE (some args) "caseId" = .ok (some (.str c)))
    (hmaster : truthyV (dbMasterSingle db (some (.str c))) = true)
    (hnone : db.obyRows.filter (fun r => beqJsonV r.case_id (some (.str c))) = [])
    (hids : ∀ r ∈ db.obyRows, r.id < db.nextId) :
    obyCountFor ((createObyDraftStep args ((createObyDraftStep args db).2)).2)
        (some (.str c)) = 1
    ∧ (createObyDraftStep args db).1.success = true
    ∧ (createObyDraftStep args ((createObyDraftStep args db).2)).1.success = true := by
  have hq : beqJsonV (some (Json.str c)) (some (Json.str c)) = true := by
    simp [beqJsonV, beqJson]
  have hsel1 : dbObyMaybeSingle db (some (.str c)) = none := by
    simp only [dbObyMaybeSingle, hnone]
  have hstep1 := createObyDraftStep_insert args db c hc hmaster hsel1
  have hdb1 : (createObyDraftStep args db).2
      = { db with
          obyRows := db.obyRows ++ [⟨db.nextId, some (.str c), "draft",
            dbMasterSingle db (some (.str c)),
            jsOr (jsProp args "autoPopulatedFields") (.arr []), false⟩],
          nextId := db.nextId + 1 } := by
    rw [hstep1]
  have hs1 : (createObyDraftStep args db).1.success = true := by
    rw [hstep1]
  have hmaster2 : dbMasterSingle (createObyDraftStep args db).2 (some (.str c))
      = dbMasterSingle db (some (.str c)) := by
    rw [hdb1]
    rfl
  have hsel2 : dbObyMaybeSingle (createObyDraftStep args db).2 (some (.str c))
      = some ⟨db.nextId, some (.str c), "draft", dbMasterSingle db (some (.str c)),
          jsOr (jsProp args "autoPopulatedFields") (.arr []), false⟩ := by
    rw [hdb1]
    simp only [dbObyMaybeSingle, List.filter_append, hnone]
    simp [hq]
  have htruthy2 : truthyV (dbMasterSingle (createObyDraftStep args db).2 (some (.str c)))
      = true := by
    rw [hmaster2, hmaster]
  have hstep2 := createObyDraftStep_update args ((createObyDraftStep args db).2) c
    ⟨db.nextId, some (.str c), "draft", dbMasterSingle db (some (.str c)),
      jsOr (jsProp args "autoPopulatedFields") (.arr []), false⟩ hc htruthy2 hsel2
  refine ⟨?_, hs1, ?_⟩
  · rw [obyCountFor, hstep2]
    simp only
    rw [hdb1]
    simp only [List.map_append]
    rw [map_id_of_mem db.obyRows _ (fun r hr => by
      rw [if_neg (by simpa using Nat.ne_of_lt (hids r hr))])]
    simp only [List.map_cons, List.map_nil, List.filter_append, hnone]
    simp [hq]
  · rw [hstep2]

/-- Arguments for the C8 witness. -/
def c8Args : Json := .obj [("caseId", .str "C8")]

/-- Initial table state for the C8 witness: a master row for the case,
no drafts. -/
def c8Db : ObyDb :=
  { masterRows := [(some (.str "C8"), .obj [("applicant_first_name", .str "Jan")])],
    obyRows := [], nextId := 0 }

/-- Witness for C8 at a concrete case. -/
theorem create_oby_draft_idempotent_witness :
    jsPropE (some c8Args) "caseId" = .ok (some (.str "C8"))
    ∧ truthyV (dbMasterSingle c8Db (some (.str "C8"))) = true
    ∧ c8Db.obyRows.filter (fun r => beqJsonV r.case_id (some (.str "C8"))) = []
    ∧ obyCountFor ((createObyDraftStep c8Args ((createObyDraftStep c8Args c8Db).2)).2)
        (some (.str "C8")) = 1
    ∧ (createObyDraftStep c8Args c8Db).1.success = true
    ∧ (createObyDraftStep c8Args ((createObyDraftStep c8Args c8Db).2)).1.success = true := by
  have h := create_oby_draft_idempotent c8Args c8Db "C8" rfl rfl rfl (by simp [c8Db])
  exact ⟨rfl, rfl, rfl, h.1, h.2.1, h.2.2⟩

/-
Agent Orchestrator (serve handler, lines 170-425).  The model covers the
effectful skeleton: conversation resolution, the case-fetch gate, the
model-call gate, message persistence, tool execution, the request-level
audit entry and the response or event stream.  Input validation, context
assembly (buildAgentContext) and prompt selection (getSystemPrompt) only
shape the request sent to the model collaborator, whose reply is an
oracle input here (NsEnv and StEnv), so they add no observable behavior
to the claims and are folded into the oracle.
-/

/-- The validated request fields the skeleton uses (line 187). -/
structure AgentRequest where
  caseId : Option String
  prompt : String
  action : String
  conversationId : Option String

/-- Actor resolution (line 188): the x-user-id header value, with a
missing or empty header defaulting to system. -/
def resolveUserId (h : Option String) : String :=
  match h with
  | some u => if u = "" then "system" else u
  | none => "system"

/-- Conversation resolution (lines 196-207): with no conversationId and
a caseId present, insert a conversation tagged with the action and take
the id the insert returns (oracle newConvId); the triple is the active
conversation id, the isNewConversation flag, and the insert effect. -/
def resolveConv (req : AgentRequest) (newConvId : Option String) :
    Option String × Bool × List Effect :=
  match req.conversationId with
  | some cid => (some cid, false, [])
  | none =>
    match req.caseId with
    | some c => (newConvId, true, [Effect.convInsert c req.action])
    | none => (none, false, [])

/-- The case-fetch gate (lines 221-237): security_audit builds a static
context without a fetch; otherwise, when a caseId is present, the case
and its related records are fetched and a fetch error aborts the
request. -/
def caseGate (req : AgentRequest) (fetch : Except String Unit) : Except String Unit :=
  if req.action = "security_audit" then .ok ()
  else
    match req.caseId with
    | some _ =>
      match fetch with
      | .ok _ => .ok ()
      | .error m => .error ("Failed to fetch case: " ++ m)
    | none => .ok ()

/-- Oracle for one non-streaming request: the conversation id returned
by the insert, the case-fetch outcome, the model-call status, the reply
fields of choices 0 message, and the per-slot tool oracles. -/
structure NsEnv where
  newConvId : Option String := some "conv-1"
  caseFetch : Except String Unit := .ok ()
  aiOk : Bool := true
  aiStatus : Nat := 200
  aiContent : String := ""
  aiToolCalls : Option (List Json) := none
  sup : Nat → ToolEnv := fun _ => okToolEnv

/-- Non-streaming response payload (lines 415-419). -/
structure AgentResponse where
  response : String
  conversationId : Option String
  toolResults : List ToolResult

/-- Outcome of one non-streaming request: the HTTP-level result and the
side effects performed on the way. -/
structure NsRun where
  outcome : Except String AgentResponse
  effects : List Effect

/-- Conversation-message inserts (lines 326-337 and 381-392): one user
and one assistant row in a single insert call when a conversation is
active, nothing otherwise. -/
def msgEffects (activeConv : Option String) (prompt content : String)
    (tcs : Option (List Json)) : List Effect :=
  match activeConv with
  | some id => [Effect.msgInsert id "user" prompt none,
                Effect.msgInsert id "assistant" content tcs]
  | none => []

/-- Tool-execution step of the non-streaming path (lines 394-398): runs
only when the model returned tool calls and a case is associated. -/
def nsTools (req : AgentRequest) (env : NsEnv) (uid : String) :
    Except String (List ToolResult) × List Effect :=
  match env.aiToolCalls, req.caseId with
  | some l, some c =>
    if l.length > 0 then executeToolsParallel l c env.sup uid
    else (.ok [], [])
  | _, _ => (.ok [], [])

/-- Model of substring(0, n): the first n characters. -/
def jsSubstringTo (s : String) (n : Nat) : String := String.mk (s.data.take n)

/-- Request-level audit entry (lines 400-413), written only when a case
is associated: truncated reply preview, conversation id, tool count. -/
def reqLogEffects (req : AgentRequest) (uid content : String)
    (activeConv : Option String) (tcs : Option (List Json)) : List Effect :=
  match req.caseId with
  | some c => [Effect.reqLog c ("ai_agent_" ++ req.action) req.prompt uid
      (jsSubstringTo content 500) activeConv ((tcs.getD []).length)]
  | none => []

/-- The non-streaming path of the serve handler (lines 170-425 with
stream false): resolve the conversation, fetch the case, call the model,
persist the user and assistant messages when a conversation is active,
run the tools when tool calls and a case are present, write the
request-level audit entry when a case is present, and answer. -/
def runAgent (req : AgentRequest) (userHeader : Option String) (env : NsEnv) : NsRun :=
  let uid := resolveUserId userHeader
  let rc := resolveConv req env.newConvId
  let activeConv := rc.1
  let effs0 := rc.2.2
  match caseGate req env.caseFetch with
  | .error m => ⟨.error m, effs0⟩
  | .ok _ =>
    if !env.aiOk then ⟨.error ("AI Gateway error: " ++ toString env.aiStatus), effs0⟩
    else
      let effs1 := msgEffects activeConv req.prompt env.aiContent env.aiToolCalls
      let tp := nsTools req env uid
      match tp.1 with
      | .error m => ⟨.error m, effs0 ++ effs1 ++ tp.2⟩
      | .ok results =>
        ⟨.ok ⟨env.aiContent, activeConv, results⟩,
         effs0 ++ effs1 ++ tp.2
           ++ reqLogEffects req uid env.aiContent activeConv env.aiToolCalls⟩

/-- Oracle for one streaming request. -/
structure StEnv where
  newConvId : Option String := some "conv-1"
  caseFetch : Except String Unit := .ok ()
  aiOk : Bool := true
  aiStatus : Nat := 200
  chunks : List (List Char) := []
  sup : Nat → ToolEnv := fun _ => okToolEnv

/-- One event enqueued on the SSE response stream (lines 283-345). -/
inductive OutEvent where
  | conv (conversationId : String)
  | delta (content : Json)
  | toolResults (results : List ToolResult)
  | done

/-- Outcome of one streaming request: ok when the output stream closed
normally after the DONE sentinel, error when the setup failed or the
stream errored; plus the events enqueued and the effects performed. -/
structure StRun where
  outcome : Except String Unit
  events : List OutEvent
  effects : List Effect

/-- The streaming path (lines 267-361): after the same setup gates, send
the conversationId when the conversation was just created, relay the
upstream chunks forwarding every content delta, persist the user message
and the accumulated assistant message when a conversation is active,
execute accumulated tool calls when a case is present forwarding their
results as one event, and close with the DONE sentinel; a rejection
inside the stream body errors the output stream without the sentinel. -/
def runAgentStream (req : AgentRequest) (userHeader : Option String) (env : StEnv) : StRun :=
  let uid := resolveUserId userHeader
  let rc := resolveConv req env.newConvId
  let activeConv := rc.1
  let isNew := rc.2.1
  let effs0 := rc.2.2
  match caseGate req env.caseFetch with
  | .error m => ⟨.error m, [], effs0⟩
  | .ok _ =>
    if !env.aiOk then ⟨.error ("AI Gateway error: " ++ toString env.aiStatus), [], effs0⟩
    else
      let ev0 :=
        match isNew, activeConv with
        | true, some id => [OutEvent.conv id]
        | _, _ => []
      let relay := relayFeed initRelay env.chunks
      let evD := relay.core.deltas.map OutEvent.delta
      let effs1 := msgEffects activeConv req.prompt (String.mk relay.core.fullContent)
        (if relay.core.toolCalls.length > 0 then some relay.core.toolCalls else none)
      match req.caseId with
      | some c =>
        if relay.core.toolCalls.length > 0 then
          let tp := executeToolsParallel relay.core.toolCalls c env.sup uid
          match tp.1 with
          | .error m => ⟨.error m, ev0 ++ evD, effs0 ++ effs1 ++ tp.2⟩
          | .ok rs => ⟨.ok (), ev0 ++ evD ++ [OutEvent.toolResults rs, OutEvent.done],
              effs0 ++ effs1 ++ tp.2⟩
        else ⟨.ok (), ev0 ++ evD ++ [OutEvent.done], effs0 ++ effs1⟩
      | none => ⟨.ok (), ev0 ++ evD ++ [OutEvent.done], effs0 ++ effs1⟩

/-- Test for the request-level audit entry. -/
def Effect.isReqLog : Effect → Bool
  | .reqLog _ _ _ _ _ _ _ => true
  | _ => false

/-- Test for a conversation-message insert. -/
def Effect.isMsgInsert : Effect → Bool
  | .msgInsert _ _ _ _ => true
  | _ => false

/-- Test for the effect kinds a tool handler can emit. -/
def Effect.isToolSide : Effect → Bool
  | .funcInvoke _ _ => true
  | .taskInsert _ _ _ _ _ _ _ => true
  | .masterUpdate _ _ => true
  | .masterNotesUpdate _ _ => true
  | .archiveInsert _ _ _ _ _ _ _ => true
  | .obyInsert _ _ _ _ _ => true
  | .obyUpdate _ _ _ _ _ _ => true
  | .toolLog _ _ _ _ _ _ => true
  | _ => false

theorem toolSide_not_reqLog (e : Effect) (h : e.isToolSide = true) : e.isReqLog = false := by
  cases e <;> simp_all [Effect.isToolSide, Effect.isReqLog]

theorem toolSide_not_msgInsert (e : Effect) (h : e.isToolSide = true) :
    e.isMsgInsert = false := by
  cases e <;> simp_all [Effect.isToolSide, Effect.isMsgInsert]

theorem poaPdfHandler_effects (args : Json) (env : ToolEnv) (uid : String) :
    ∀ e ∈ (poaPdfHandler args env uid).2, e.isToolSide = true := by
  intro e he
  simp only [poaPdfHandler] at he
  repeat' split at he
  all_goals
    simp only [List.mem_cons, List.not_mem_nil, or_false] at he
  all_goals
    first
      | exact he.elim
      | (rcases he with rfl | rfl <;> rfl)

theorem createObyHandler_effects (args : Json) (env : ToolEnv) (uid : String) :
    ∀ e ∈ (createObyHandler args env uid).2, e.isToolSide = true := by
  intro e he
  simp only [createObyHandler] at he
  repeat' split at he
  all_goals
    simp only [List.mem_cons, List.not_mem_nil, or_false] at he
  all_goals
    first
      | exact he.elim
      | (rcases he with rfl | rfl <;> rfl)

theorem createTaskHandler_effects (args : Json) (env : ToolEnv) :
    ∀ e ∈ (createTaskHandler args env).2, e.isToolSide = true := by
  intro e he
  simp only [createTaskHandler] at he
  repeat' split at he
  all_goals
    simp only [List.mem_cons, List.not_mem_nil, or_false] at he
  all_goals
    first
      | exact he.elim
      | (rcases he with rfl | rfl <;> rfl)

theorem triggerOcrHandler_effects (args : Json) (env : ToolEnv) :
    ∀ e ∈ (triggerOcrHandler args env).2, e.isToolSide = true := by
  intro e he
  simp only [triggerOcrHandler] at he
  repeat' split at he
  all_goals
    simp only [List.mem_cons, List.not_mem_nil, or_false] at he
  all_goals
    first
      | exact he.elim
      | (rcases he with rfl | rfl <;> rfl)

theorem updateMasterHandler_effects (args : Json) (env : ToolEnv) (uid : String) :
    ∀ e ∈ (updateMasterHandler args env uid).2, e.isToolSide = true := by
  intro e he
  simp only [updateMasterHandler] at he
  repeat' split at he
  all_goals
    simp only [List.mem_cons, List.not_mem_nil, or_false] at he
  all_goals
    first
      | exact he.elim
      | (rcases he with rfl | rfl <;> rfl)

theorem archiveHandler_effects (args : Json) (env : ToolEnv) (uid : String) :
    ∀ e ∈ (archiveHandler args env uid).2, e.isToolSide = true := by
  intro e he
  simp only [archiveHandler] at he
  repeat' split at he
  all_goals
    simp only [List.mem_cons, List.not_mem_nil, or_false] at he
  all_goals
    first
      | exact he.elim
      | (rcases he with rfl | rfl <;> rfl)

theorem wscHandler_effects (args : Json) (env : ToolEnv) (uid : String) :
    ∀ e ∈ (wscHandler args env uid).2, e.isToolSide = true := by
  intro e he
  simp only [wscHandler] at he
  repeat' split at he
  all_goals
    simp only [List.mem_cons, List.not_mem_nil, or_false] at he
  all_goals
    first
      | exact he.elim
      | (rcases he with rfl | rfl <;> rfl)

theorem civilActsHandler_effects (args : Json) (env : ToolEnv) (uid : String) :
    ∀ e ∈ (civilActsHandler args env uid).2, e.isToolSide = true := by
  intro e he
  simp only [civilActsHandler] at he
  repeat' split at he
  all_goals
    simp only [List.mem_cons, List.not_mem_nil, or_false] at he
  all_goals
    first
      | exact he.elim
      | (rcases he with rfl | rfl <;> rfl)

theorem dispatchTool_effects (name : JsVal) (args : Json) (env : ToolEnv) (uid : String) :
    ∀ e ∈ (dispatchTool name args env uid).2, e.isToolSide = true := by
  intro e he
  simp only [dispatchTool] at he
  repeat' split at he
  · exact poaPdfHandler_effects args env uid e he
  · exact createTaskHandler_effects args env e he
  · exact triggerOcrHandler_effects args env e he
  · exact updateMasterHandler_effects args env uid e he
  · exact archiveHandler_effects args env uid e he
  · exact createObyHandler_effects args env uid e he
  · exact wscHandler_effects args env uid e he
  · exact civilActsHandler_effects args env uid e he
  · simp at he

theorem catchClause_effects (tc : Json) (m : String) : (catchClause tc m).2 = [] := by
  unfold catchClause
  repeat' split
  all_goals rfl

theorem executeSingleTool_effects (tc : Json) (cid : String) (env : ToolEnv) (uid : String) :
    ∀ e ∈ (executeSingleTool tc cid env uid).2, e.isToolSide = true := by
  intro e he
  simp only [executeSingleTool] at he
  repeat' split at he
  all_goals
    first
      | (rw [catchClause_effects] at he; exact absurd he (List.not_mem_nil e))
      | exact dispatchTool_effects _ _ _ _ e he

theorem executeToolsParallel_effects (tcs : List Json) (cid : String) (sup : Nat → ToolEnv)
    (uid : String) :
    ∀ e ∈ (executeToolsParallel tcs cid sup uid).2, e.isToolSide = true := by
  induction tcs generalizing sup with
  | nil =>
    intro e he
    simp [executeToolsParallel, runToolCalls] at he
  | cons tc rest ih =>
    intro e he
    simp only [executeToolsParallel, runToolCalls, List.map_cons, List.flatten_cons,
      List.mem_append] at he
    rcases he with he | he
    · exact executeSingleTool_effects tc cid (sup 0) uid e he
    · exact ih (fun i => sup (i + 1)) e he

theorem resolveConv_not_reqLog (req : AgentRequest) (n : Option String) :
    ∀ e ∈ (resolveConv req n).2.2, e.isReqLog = false := by
  intro e he
  simp only [resolveConv] at he
  repeat' split at he
  all_goals
    simp only [List.mem_cons, List.not_mem_nil, or_false] at he
  all_goals
    first
      | exact he.elim
      | (rcases he with rfl | rfl <;> rfl)

theorem resolveConv_not_msg (req : AgentRequest) (n : Option String) :
    ∀ e ∈ (resolveConv req n).2.2, e.isMsgInsert = false := by
  intro e he
  simp only [resolveConv] at he
  repeat' split at he
  all_goals
    simp only [List.mem_cons, List.not_mem_nil, or_false] at he
  all_goals
    first
      | exact he.elim
      | (rcases he with rfl | rfl <;> rfl)

theorem msgEffects_not_reqLog (a : Option String) (p ct : String) (t : Option (List Json)) :
    ∀ e ∈ msgEffects a p ct t, e.isReqLog = false := by
  intro e he
  simp only [msgEffects] at he
  split at he
  · simp only [List.mem_cons, List.not_mem_nil, or_false] at he
    rcases he with rfl | rfl <;> rfl
  · exact absurd he (List.not_mem_nil e)

theorem reqLogEffects_not_msg (req : AgentRequest) (uid ct : String) (a : Option String)
    (t : Option (List Json)) :
    ∀ e ∈ reqLogEffects req uid ct a t, e.isMsgInsert = false := by
  intro e he
  simp only [reqLogEffects] at he
  split at he
  · simp only [List.mem_cons, List.not_mem_nil, or_false] at he
    rcases he with rfl | rfl <;> rfl
  · exact absurd he (List.not_mem_nil e)

theorem nsTools_toolSide (req : AgentRequest) (env : NsEnv) (uid : String) :
    ∀ e ∈ (nsTools req env uid).2, e.isToolSide = true := by
  intro e he
  simp only [nsTools] at he
  repeat' split at he
  all_goals
    first
      | exact executeToolsParallel_effects _ _ _ _ e he
      | exact absurd he (List.not_mem_nil e)

theorem nsTools_ok (req : AgentRequest) (env : NsEnv) (uid : String)
    (hwf : ∀ tc ∈ env.aiToolCalls.getD [], WfCall tc) :
    ∃ rs, (nsTools req env uid).1 = .ok rs := by
  unfold nsTools
  rcases htc : env.aiToolCalls with _ | l
  · rcases req.caseId with _ | c
    · exact ⟨[], rfl⟩
    · exact ⟨[], rfl⟩
  · rcases req.caseId with _ | c
    · exact ⟨[], rfl⟩
    · dsimp only
      by_cases hl : l.length > 0
      · rw [if_pos hl]
        have hwf2 : ∀ tc ∈ l, WfCall tc := by
          intro t ht
          apply hwf
          rw [htc]
          exact ht
        obtain ⟨rs, hok, _⟩ := collectOk_runToolCalls l c uid env.sup hwf2
        exact ⟨rs, hok⟩
      · rw [if_neg hl]
        exact ⟨[], rfl⟩

theorem filter_eq_nil_of_forall (p : Effect → Bool) (l : List Effect)
    (h : ∀ e ∈ l, p e = false) : l.filter p = [] :=
  List.filter_eq_nil_iff.mpr (fun e he => by simp [h e he])

theorem forall_mem_append {p : Effect → Bool} {l1 l2 : List Effect}
    (h1 : ∀ e ∈ l1, p e = false) (h2 : ∀ e ∈ l2, p e = false) :
    ∀ e ∈ l1 ++ l2, p e = false := by
  intro e he
  rcases List.mem_append.mp he with h | h
  · exact h1 e h
  · exact h2 e h

theorem runAgentStream_no_reqLog (req : AgentRequest) (userHeader : Option String)
    (env : StEnv) :
    ∀ e ∈ (runAgentStream req userHeader env).effects, e.isReqLog = false := by
  simp only [runAgentStream]
  repeat' split
  all_goals
    first
      | exact resolveConv_not_reqLog req env.newConvId
      | exact forall_mem_append (resolveConv_not_reqLog req env.newConvId)
          (msgEffects_not_reqLog _ _ _ _)
      | exact forall_mem_append
          (forall_mem_append (resolveConv_not_reqLog req env.newConvId)
            (msgEffects_not_reqLog _ _ _ _))
          (fun e he => toolSide_not_reqLog e (executeToolsParallel_effects _ _ _ _ e he))

/-- Claim C5 as amended: with a case associated and the request
succeeding, the non-streaming path writes exactly one request-level
audit entry, carrying the truncated (at most 500 characters) reply
preview, the conversation id and the tool-call count; the streaming path
writes no request-level audit entry at all (the hac_logs insert of lines
400-413 sits after the streaming return of line 353). -/
theorem request_audit_log (req : AgentRequest) (userHeader : Option String)
    (nsEnv : NsEnv) (stEnv : StEnv) (c : String)
    (hcase : req.caseId = some c)
    (hgate : caseGate req nsEnv.caseFetch = .ok ())
    (hai : nsEnv.aiOk = true)
    (hwf : ∀ tc ∈ nsEnv.aiToolCalls.getD [], WfCall tc) :
    (runAgent req userHeader nsEnv).effects.filter Effect.isReqLog
      = [Effect.reqLog c ("ai_agent_" ++ req.action) req.prompt (resolveUserId userHeader)
          (jsSubstringTo nsEnv.aiContent 500) (resolveConv req nsEnv.newConvId).1
          ((nsEnv.aiToolCalls.getD []).length)]
    ∧ (jsSubstringTo nsEnv.aiContent 500).length ≤ 500
    ∧ (runAgentStream req userHeader stEnv).effects.filter Effect.isReqLog = [] := by
  refine ⟨?_, ?_, ?_⟩
  · obtain ⟨rs, hok⟩ := nsTools_ok req nsEnv (resolveUserId userHeader) hwf
    simp only [runAgent, hgate, hai, Bool.not_true, Bool.false_eq_true, if_false, hok]
    rw [List.filter_append, List.filter_append, List.filter_append]
    rw [filter_eq_nil_of_forall _ _ (resolveConv_not_reqLog req nsEnv.newConvId)]
    rw [filter_eq_nil_of_forall _ _ (msgEffects_not_reqLog _ _ _ _)]
    rw [filter_eq_nil_of_forall _ _ (fun e he =>
      toolSide_not_reqLog e (nsTools_toolSide req nsEnv (resolveUserId userHeader) e he))]
    simp only [List.nil_append]
    simp only [reqLogEffects, hcase]
    rfl
  · simp only [jsSubstringTo, String.length, List.length_take]
    exact Nat.min_le_left _ _
  · exact filter_eq_nil_of_forall _ _ (runAgentStream_no_reqLog req userHeader stEnv)

/-- Request of the C5 counterexample and witness scenarios. -/
def c5Req : AgentRequest := ⟨some "C1", "hello", "researcher", none⟩

/-- Streaming oracle delivering one content chunk and no tool calls. -/
def c5Env : StEnv :=
  { chunks := [("data: \x7b\"choices\":[\x7b\"delta\":\x7b\"content\":\"hi\"\x7d\x7d]\x7d\n" : String).data] }

/-- Counterexample to claim C5 as stated: a streaming request with an
associated case completes normally and its full effect list contains no
audit entry for the request at all, only the conversation insert and
the two message inserts. -/
theorem streaming_audit_missing_cex :
    c5Req.caseId = some "C1"
    ∧ (runAgentStream c5Req none c5Env).outcome = .ok ()
    ∧ (runAgentStream c5Req none c5Env).effects
      = [Effect.convInsert "C1" "researcher",
         Effect.msgInsert "conv-1" "user" "hello" none,
         Effect.msgInsert "conv-1" "assistant" "hi" none] :=
  ⟨rfl, rfl, rfl⟩

/-- Non-streaming oracle for the C5 witness. -/
def c5NsEnv : NsEnv := { aiContent := "sure thing" }

set_option maxRecDepth 40000 in
/-- Witness for the amended C5 at a concrete request. -/
theorem request_audit_log_witness :
    c5Req.caseId = some "C1"
    ∧ caseGate c5Req c5NsEnv.caseFetch = .ok ()
    ∧ c5NsEnv.aiOk = true
    ∧ ((runAgent c5Req none c5NsEnv).effects.filter Effect.isReqLog
        = [Effect.reqLog "C1" "ai_agent_researcher" "hello" "system" "sure thing"
            (some "conv-1") 0]
      ∧ (jsSubstringTo "sure thing" 500).length ≤ 500
      ∧ (runAgentStream c5Req none c5Env).effects.filter Effect.isReqLog = []) := by
  have h := request_audit_log c5Req none c5NsEnv c5Env "C1" rfl rfl rfl (by
    intro tc htc
    simp [c5NsEnv] at htc)
  exact ⟨rfl, rfl, rfl, h⟩

theorem filter_msg_msgEffects (id p ct : String) (t : Option (List Json)) :
    (msgEffects (some id) p ct t).filter Effect.isMsgInsert
      = [Effect.msgInsert id "user" p none, Effect.msgInsert id "assistant" ct t] := rfl

/-- Claim C6 as amended: after a successful model call, exactly one user
message (the literal prompt) and one assistant message (the full reply
content with any tool calls) are appended — whenever an active
conversation exists (conversationId supplied, or created from a
caseId); with no active conversation nothing is appended (see the
counterexample).  The non-streaming half holds even when tool execution
later fails, because the insert precedes it. -/
theorem conversation_messages_appended (req : AgentRequest) (userHeader : Option String)
    (nsEnv : NsEnv) (stEnv : StEnv) (id id2 : String)
    (hconv : (resolveConv req nsEnv.newConvId).1 = some id)
    (hgate : caseGate req nsEnv.caseFetch = .ok ())
    (hai : nsEnv.aiOk = true)
    (hconv2 : (resolveConv req stEnv.newConvId).1 = some id2)
    (hgate2 : caseGate req stEnv.caseFetch = .ok ())
    (hai2 : stEnv.aiOk = true) :
    (runAgent req userHeader nsEnv).effects.filter Effect.isMsgInsert
      = [Effect.msgInsert id "user" req.prompt none,
         Effect.msgInsert id "assistant" nsEnv.aiContent nsEnv.aiToolCalls]
    ∧ (runAgentStream req userHeader stEnv).effects.filter Effect.isMsgInsert
      = [Effect.msgInsert id2 "user" req.prompt none,
         Effect.msgInsert id2 "assistant"
           (String.mk (relayFeed initRelay stEnv.chunks).core.fullContent)
           (if (relayFeed initRelay stEnv.chunks).core.toolCalls.length > 0
            then some (relayFeed initRelay stEnv.chunks).core.toolCalls else none)] := by
  constructor
  · simp only [runAgent, hgate, hai, Bool.not_true, Bool.false_eq_true, if_false, hconv]
    split
    · rw [List.filter_append, List.filter_append]
      rw [filter_eq_nil_of_forall _ _ (resolveConv_not_msg req nsEnv.newConvId)]
      rw [filter_eq_nil_of_forall _ _ (fun e he =>
        toolSide_not_msgInsert e (nsTools_toolSide req nsEnv (resolveUserId userHeader) e he))]
      rw [filter_msg_msgEffects]
      simp
    · rw [List.filter_append, List.filter_append, List.filter_append]
      rw [filter_eq_nil_of_forall _ _ (resolveConv_not_msg req nsEnv.newConvId)]
      rw [filter_eq_nil_of_forall _ _ (fun e he =>
        toolSide_not_msgInsert e (nsTools_toolSide req nsEnv (resolveUserId userHeader) e he))]
      rw [filter_eq_nil_of_forall _ _ (reqLogEffects_not_msg req (resolveUserId userHeader)
        nsEnv.aiContent (some id) nsEnv.aiToolCalls)]
      rw [filter_msg_msgEffects]
      simp
  · simp only [runAgentStream, hgate2, hai2, Bool.not_true, Bool.false_eq_true, if_false, hconv2]
    repeat' split
    all_goals
      first
        | (rw [List.filter_append, List.filter_append]
           rw [filter_eq_nil_of_forall _ _ (resolveConv_not_msg req stEnv.newConvId)]
           rw [filter_eq_nil_of_forall _ _ (fun e he =>
             toolSide_not_msgInsert e (executeToolsParallel_effects _ _ _ _ e he))]
           rw [filter_msg_msgEffects]
           simp)
        | (rw [List.filter_append]
           rw [filter_eq_nil_of_forall _ _ (resolveConv_not_msg req stEnv.newConvId)]
           rw [filter_msg_msgEffects]
           simp)

/-- Request without a case or conversation used against C6. -/
def c6Req : AgentRequest := ⟨none, "p", "researcher", none⟩

/-- Oracle whose model call succeeds with a plain reply. -/
def c6Env : NsEnv := { aiContent := "ok" }

/-- Counterexample to claim C6 as stated: a valid request with no caseId
and no conversationId completes with a successful model call, yet the
orchestrator appends no message at all (the inserts are guarded by the
active conversation id, which is undefined here). -/
theorem no_conversation_no_messages_cex :
    (runAgent c6Req none c6Env).outcome = .ok ⟨"ok", none, []⟩
    ∧ (runAgent c6Req none c6Env).effects = [] :=
  ⟨rfl, rfl⟩

/-- Request with a case used by the C6 witness. -/
def c6WReq : AgentRequest := ⟨some "C6", "hi", "researcher", none⟩

/-- Non-streaming oracle of the C6 witness. -/
def c6WNsEnv : NsEnv := { aiContent := "done" }

/-- Streaming oracle of the C6 witness. -/
def c6WStEnv : StEnv :=
  { chunks := [("data: \x7b\"choices\":[\x7b\"delta\":\x7b\"content\":\"done\"\x7d\x7d]\x7d\n" : String).data] }

/-- Witness for the amended C6 at a concrete request on both paths. -/
theorem conversation_messages_appended_witness :
    ((resolveConv c6WReq c6WNsEnv.newConvId).1 = some "conv-1")
    ∧ (caseGate c6WReq c6WNsEnv.caseFetch = .ok ())
    ∧ (c6WNsEnv.aiOk = true)
    ∧ ((resolveConv c6WReq c6WStEnv.newConvId).1 = some "conv-1")
    ∧ (caseGate c6WReq c6WStEnv.caseFetch = .ok ())
    ∧ (c6WStEnv.aiOk = true)
    ∧ ((runAgent c6WReq none c6WNsEnv).effects.filter Effect.isMsgInsert
        = [Effect.msgInsert "conv-1" "user" c6WReq.prompt none,
           Effect.msgInsert "conv-1" "assistant" c6WNsEnv.aiContent c6WNsEnv.aiToolCalls]
      ∧ (runAgentStream c6WReq none c6WStEnv).effects.filter Effect.isMsgInsert
        = [Effect.msgInsert "conv-1" "user" c6WReq.prompt none,
           Effect.msgInsert "conv-1" "assistant"
             (String.mk (relayFeed initRelay c6WStEnv.chunks).core.fullContent)
             (if (relayFeed initRelay c6WStEnv.chunks).core.toolCalls.length > 0
              then some (relayFeed initRelay c6WStEnv.chunks).core.toolCalls else none)]) :=
  ⟨rfl, rfl, rfl, rfl, rfl, rfl,
   conversation_messages_appended c6WReq none c6WNsEnv c6WStEnv "conv-1" "conv-1"
     rfl rfl rfl rfl rfl rfl⟩

/-- Content payloads of the delta events of a run, in order. -/
def deltaContents (evs : List OutEvent) : List Json :=
  evs.filterMap (fun ev => match ev with | OutEvent.delta c => some c | _ => none)

theorem deltaContents_append (a b : List OutEvent) :
    deltaContents (a ++ b) = deltaContents a ++ deltaContents b := by
  simp [deltaContents]

theorem deltaContents_map_delta (ds : List Json) :
    deltaContents (ds.map OutEvent.delta) = ds := by
  induction ds with
  | nil => rfl
  | cons a t ih => simpa [deltaContents] using ih

theorem deltaContents_cons_conv (id : String) (rest : List OutEvent) :
    deltaContents (OutEvent.conv id :: rest) = deltaContents rest := rfl

theorem deltaContents_cons_toolResults (rs : List ToolResult) (rest : List OutEvent) :
    deltaContents (OutEvent.toolResults rs :: rest) = deltaContents rest := rfl

theorem deltaContents_cons_done (rest : List OutEvent) :
    deltaContents (OutEvent.done :: rest) = deltaContents rest := rfl

theorem deltaContents_nil : deltaContents [] = [] := rfl

/-- Claim C10: in the streaming path, whenever an active conversation
exists, the persisted assistant message content is exactly the in-order
concatenation (under string coercion) of the content payloads of the
delta events this very run forwarded to the caller. -/
theorem streamed_deltas_match_persisted (req : AgentRequest) (userHeader : Option String)
    (env : StEnv) (id : String)
    (hconv : (resolveConv req env.newConvId).1 = some id)
    (hgate : caseGate req env.caseFetch = .ok ())
    (hai : env.aiOk = true) :
    ∃ t, (runAgentStream req userHeader env).effects.filter Effect.isMsgInsert
      = [Effect.msgInsert id "user" req.prompt none,
         Effect.msgInsert id "assistant"
           (String.mk (contentOfDeltas
             (deltaContents (runAgentStream req userHeader env).events))) t] := by
  have hsync : (relayFeed initRelay env.chunks).core.fullContent
      = contentOfDeltas (relayFeed initRelay env.chunks).core.deltas :=
    relayFeed_sync env.chunks initRelay rfl
  refine ⟨(if (relayFeed initRelay env.chunks).core.toolCalls.length > 0
    then some (relayFeed initRelay env.chunks).core.toolCalls else none), ?_⟩
  simp only [runAgentStream, hgate, hai, Bool.not_true, Bool.false_eq_true, if_false, hconv]
  repeat' split
  all_goals
    first
      | (rw [List.filter_append, List.filter_append]
         rw [filter_eq_nil_of_forall _ _ (resolveConv_not_msg req env.newConvId)]
         rw [filter_eq_nil_of_forall _ _ (fun e he =>
           toolSide_not_msgInsert e (executeToolsParallel_effects _ _ _ _ e he))]
         rw [filter_msg_msgEffects]
         simp [deltaContents_append, deltaContents_map_delta, deltaContents_cons_conv,
           deltaContents_cons_toolResults, deltaContents_cons_done, deltaContents_nil,
           ← hsync])
      | (rw [List.filter_append]
         rw [filter_eq_nil_of_forall _ _ (resolveConv_not_msg req env.newConvId)]
         rw [filter_msg_msgEffects]
         simp [deltaContents_append, deltaContents_map_delta, deltaContents_cons_conv,
           deltaContents_cons_toolResults, deltaContents_cons_done, deltaContents_nil,
           ← hsync])

/-- Request with a case used by the C10 witness. -/
def c10Req : AgentRequest := ⟨some "C10", "q", "researcher", none⟩

/-- Streaming oracle of the C10 witness: two content deltas. -/
def c10Env : StEnv :=
  { chunks := [("data: \x7b\"choices\":[\x7b\"delta\":\x7b\"content\":\"he\"\x7d\x7d]\x7d\ndata: \x7b\"choices\":[\x7b\"delta\":\x7b\"content\":\"llo\"\x7d\x7d]\x7d\n" : String).data] }

/-- Witness for C10 at a concrete streaming run. -/
theorem streamed_deltas_match_persisted_witness :
    ((resolveConv c10Req c10Env.newConvId).1 = some "conv-1")
    ∧ (caseGate c10Req c10Env.caseFetch = .ok ())
    ∧ (c10Env.aiOk = true)
    ∧ ∃ t, (runAgentStream c10Req none c10Env).effects.filter Effect.isMsgInsert
      = [Effect.msgInsert "conv-1" "user" c10Req.prompt none,
         Effect.msgInsert "conv-1" "assistant"
           (String.mk (contentOfDeltas
             (deltaContents (runAgentStream c10Req none c10Env).events))) t] :=
  ⟨rfl, rfl, rfl, streamed_deltas_match_persisted c10Req none c10Env "conv-1" rfl rfl rfl⟩
